import Mathlib

/-!
The subscription registry of ponzu-cms/live.

A shallow embedding of `event.go` and `subscribe.go`.

* Go maps are association lists (`GoMap`): the list order is the order in
  which `range` enumerates the entries, a `nil` map is a value of its own
  (reads succeed with "absent", a write panics).  A Go map holds at most one
  entry per key; `GoMap.WF` states this where a proof needs it.
* A channel is identified by a number; `make(chan LiveEvent)` takes the next
  unused number from the `World`.
* A send `ch <- ev` is recorded as a `Send`, in program order.  `Emit` lists the
  sends of a call in which every send is taken; `EmitRecv` is the call with the
  handoff: the channels are unbuffered, so a send on a channel from which no
  goroutine receives blocks and the call never returns.
* The `context.Context` argument of `Emit` and the payload (`interface{}`)
  are values of arbitrary types.
* The package mutex `mu` does nothing in a sequential execution and is left out
  of `Subscribe`; `SubscribeCall.step` cuts `Subscribe` into the steps between
  which a concurrent call can run.
* An inner map is shared by reference with the registry entry that holds it;
  a write into it is written back to that entry.  No inner map is held by two
  entries (every entry `Subscribe` creates gets a map of its own).
* `fmt.Sprintf` is given by what it produces: `%s` of a string is the string,
  `%d` of an integer its decimal digits, and `%s` of a value that implements
  `error` is what its `Error` method returns.
-/

set_option autoImplicit false

namespace Live

/-! ## Go maps -/

/-- A Go map value: `nil`, or a made map with its entries in enumeration order. -/
inductive GoMap (κ ν : Type) where
  | nil : GoMap κ ν
  | made (entries : List (κ × ν)) : GoMap κ ν
  deriving DecidableEq, Repr

namespace GoMap

variable {κ ν : Type}

/-- The entries `range m` enumerates (none for a nil map). -/
def entries : GoMap κ ν → List (κ × ν)
  | nil => []
  | made es => es

/-- First value stored under `k` in an entry list. -/
def find [DecidableEq κ] (k : κ) : List (κ × ν) → Option ν
  | [] => none
  | (k0, v0) :: rest => if k0 = k then some v0 else find k rest

/-- Replace the value under `k` in place, or add a new entry at the end. -/
def put [DecidableEq κ] (k : κ) (v : ν) : List (κ × ν) → List (κ × ν)
  | [] => [(k, v)]
  | (k0, v0) :: rest => if k0 = k then (k, v) :: rest else (k0, v0) :: put k v rest

/-- The comma-ok read `v, ok := m[k]`: `none` is `ok = false`. -/
def get? [DecidableEq κ] (m : GoMap κ ν) (k : κ) : Option ν :=
  find k m.entries

/-- The write `m[k] = v`: `none` is the panic of a write to a nil map. -/
def set [DecidableEq κ] (m : GoMap κ ν) (k : κ) (v : ν) : Option (GoMap κ ν) :=
  match m with
  | nil => none
  | made es => some (made (put k v es))

/-- A Go map holds at most one entry per key. -/
def WF (m : GoMap κ ν) : Prop :=
  (m.entries.map Prod.fst).Nodup

instance [DecidableEq κ] (m : GoMap κ ν) : Decidable m.WF := by
  unfold WF; infer_instance

/-- The test `m == nil`. -/
def isNil : GoMap κ ν → Bool
  | nil => true
  | made _ => false

end GoMap

/-! ## event.go -/

/-- The type `liveEventType int`. -/
abbrev liveEventType := Int

def APICreate : liveEventType := 1
def APIUpdate : liveEventType := 2
def APIDelete : liveEventType := 3
def AdminCreate : liveEventType := 4
def AdminUpdate : liveEventType := 5
def AdminDelete : liveEventType := 6
def Save : liveEventType := 7
def Delete : liveEventType := 8
def Approve : liveEventType := 9
def Reject : liveEventType := 10
def Enable : liveEventType := 11
def Disable : liveEventType := 12

/-- The struct `LiveEvent` (`type` is the exported field `Type`). -/
structure LiveEvent (α : Type) where
  type : liveEventType
  content : α
  deriving DecidableEq, Repr

/-- The method `LiveEvent.Content`. -/
def LiveEvent.Content {α : Type} (l : LiveEvent α) : α :=
  l.content

/-! ## subscribe.go -/

/-- A channel of `LiveEvent`, identified by its allocation number. -/
abbrev Chan := Nat

/-- The struct `subscriber`. -/
structure subscriber where
  notificationChan : Chan
  deriving DecidableEq, Repr

/-- The type `Subscriptions map[string]map[liveEventType][]subscriber`. -/
abbrev Subscriptions := GoMap String (GoMap liveEventType (List subscriber))

/-- The type `QueryError string`. -/
structure QueryError where
  text : String
  deriving DecidableEq, Repr

/-- The method `QueryError.Error`, `return fmt.Sprintf("[live.error] %s", e)`.
The operand `e` is the `QueryError` itself, not `string(e)`. `QueryError`
implements `error`, and for an operand that implements `error` the verb `%s`
of package `fmt` formats the string its `Error` method returns: the body calls
`e.Error()` again. `depth` bounds the nesting of calls; `none` means the call
has not returned within that nesting. -/
def QueryError.Error : Nat → QueryError → Option String
  | 0, _ => none
  | depth + 1, e =>
    match QueryError.Error depth e with
    | none => none
    | some s => some ("[live.error] " ++ s)

/-- One executed send statement `chan <- event`. -/
structure Send (α : Type) where
  chan : Chan
  event : LiveEvent α
  deriving DecidableEq, Repr

/-- The program state: the registry and the number of channels made so far. -/
structure World where
  subs : Subscriptions
  chans : Nat
  deriving DecidableEq, Repr

/-- The function `New`, in a program that has made no channel yet. -/
def New : World :=
  { subs := GoMap.made [], chans := 0 }

/-- The method `subscriber.notify`: one send of the wrapped payload. -/
def subscriber.notify {α : Type} (s : subscriber) (data : α) (eventType : liveEventType) :
    Send α :=
  { chan := s.notificationChan, event := { type := eventType, content := data } }

/-- What one call of `Emit` leaves behind: the registry after the call, the
sends it executed in order, and the returned error (`none` is `nil`). -/
structure EmitResult (α : Type) where
  subs : Subscriptions
  sent : List (Send α)
  err : Option QueryError
  deriving DecidableEq, Repr

/-- The message `fmt.Sprintf("no subs for %s.%d", contentType, eventType)`. -/
def noSubs (contentType : String) (eventType : liveEventType) : QueryError :=
  ⟨"no subs for " ++ contentType ++ "." ++ toString eventType⟩

/-- The loop `for contentT, eventTMap := range subs` of `Emit` over the entries
still to be visited; `sent` are the sends executed so far. -/
def emitLoop {α : Type} (contentType : String) (data : α) (eventType : liveEventType) :
    List (String × GoMap liveEventType (List subscriber)) → List (Send α) →
    List (Send α) × Option QueryError
  | [], sent => (sent, none)
  | (contentT, eventTMap) :: rest, sent =>
    if contentT ≠ contentType then
      emitLoop contentType data eventType rest sent
    else
      match eventTMap.get? eventType with
      | none => (sent, some (noSubs contentType eventType))
      | some ss =>
        emitLoop contentType data eventType rest
          (sent ++ ss.map (fun s => s.notify data eventType))

/-- The method `Subscriptions.Emit` in a call in which every send is received:
the sends it makes and what it returns. It never writes to the registry.
`EmitRecv` is the call with the handoff of each send. -/
def Emit {α γ : Type} (subs : Subscriptions) (_ctx : γ) (contentType : String) (data : α)
    (eventType : liveEventType) : EmitResult α :=
  let r := emitLoop contentType data eventType subs.entries []
  { subs := subs, sent := r.1, err := r.2 }

/-- The value of the Go expression `subs[contentType][eventType]` with its
comma-ok flag: `none` when the entry or the bucket is absent. -/
def bucket? (subs : Subscriptions) (contentType : String) (eventType : liveEventType) :
    Option (List subscriber) :=
  (subs.get? contentType).bind (fun m => m.get? eventType)

/-- The value of the Go expression `subs[contentType][eventType]`: the nil
slice when the entry or the bucket is absent. -/
def bucket (subs : Subscriptions) (contentType : String) (eventType : liveEventType) :
    List subscriber :=
  (bucket? subs contentType eventType).getD []

/-- The method `Subscriptions.Subscribe`. The second component is the returned
channel, or `none` when a map write panicked; the first is the state then. -/
def Subscribe (w : World) (contentType : String) (eventType : liveEventType) :
    World × Option Chan :=
  -- if _, ok := subs[contentType]; !ok { subs[contentType] = make(...) }
  let subs1? : Option Subscriptions :=
    match w.subs.get? contentType with
    | none => w.subs.set contentType (GoMap.made [])
    | some _ => some w.subs
  match subs1? with
  | none => (w, none)
  | some subs1 =>
    -- notifs := make(chan LiveEvent)
    let notifs : Chan := w.chans
    let w1 : World := { subs := subs1, chans := w.chans + 1 }
    -- subs[contentType][eventType] = append(subs[contentType][eventType], subscriber{notifs})
    let inner : GoMap liveEventType (List subscriber) :=
      (subs1.get? contentType).getD GoMap.nil
    match inner.set eventType (bucket subs1 contentType eventType ++ [⟨notifs⟩]) with
    | none => (w1, none)
    | some inner1 =>
      -- the inner map is shared with the registry entry
      match subs1.set contentType inner1 with
      | none => (w1, none)
      | some subs2 => ({ subs := subs2, chans := w.chans + 1 }, some notifs)

/-- A sequence of `Subscribe` calls, first to last, with the channels they
returned; `none` when one of them panicked. -/
def subscribeAll (w : World) : List (String × liveEventType) → Option (World × List Chan)
  | [] => some (w, [])
  | (c, k) :: rest =>
    match Subscribe w c k with
    | (_, none) => none
    | (w1, some h) =>
      match subscribeAll w1 rest with
      | none => none
      | some (w2, hs) => some (w2, h :: hs)

/-- The channels in `hs` that the calls for exactly `(c, k)` returned, in call order. -/
def handlesFor (calls : List (String × liveEventType)) (hs : List Chan)
    (c : String) (k : liveEventType) : List Chan :=
  ((calls.zip hs).filter (fun p => decide (p.1 = (c, k)))).map Prod.snd

/-- The registry and every event map stored in it came from `make`. -/
def AllMade (subs : Subscriptions) : Prop :=
  subs.isNil = false ∧ ∀ p ∈ subs.entries, p.2.isNil = false

instance (subs : Subscriptions) : Decidable (AllMade subs) := by
  unfold AllMade; infer_instance

/-- The constants of the `const` block of `event.go`, in the order declared. -/
def eventKinds : List liveEventType :=
  [APICreate, APIUpdate, APIDelete, AdminCreate, AdminUpdate, AdminDelete,
   Save, Delete, Approve, Reject, Enable, Disable]

/-- The registry after the first statement of `Subscribe`,
`if _, ok := subs[contentType]; !ok { subs[contentType] = make(...) }`;
`none` is the panic of the write. -/
def ensureEntry (subs : Subscriptions) (contentType : String) : Option Subscriptions :=
  match subs.get? contentType with
  | none => subs.set contentType (GoMap.made [])
  | some _ => some subs

/-- One call on the registry by a client. -/
inductive Call (α γ : Type) where
  | subscribe (contentType : String) (eventType : liveEventType) : Call α γ
  | emit (ctx : γ) (contentType : String) (data : α) (eventType : liveEventType) : Call α γ

/-- The state after one call (after a panicking `Subscribe`, the state it left). -/
def Call.step {α γ : Type} (w : World) : Call α γ → World
  | Call.subscribe c k => (Subscribe w c k).1
  | Call.emit ctx c data k => { subs := (Emit w.subs ctx c data k).subs, chans := w.chans }

/-- The state after a sequence of calls, first to last. -/
def run {α γ : Type} (w : World) : List (Call α γ) → World
  | [] => w
  | call :: rest => run (call.step w) rest

/-- Every bucket that exists as a key holds at least one subscriber. -/
def NonEmptyBuckets (subs : Subscriptions) : Prop :=
  ∀ c k ss, bucket? subs c k = some ss → ss ≠ []

/-- The direct definition of what `Emit` sends and returns: if `contentType`
has no entry, nil; else if the entry has no `eventType` bucket, the
`QueryError`; else notify the bucket in order and return nil. -/
def emitDirect {α : Type} (subs : Subscriptions) (contentType : String) (data : α)
    (eventType : liveEventType) : List (Send α) × Option QueryError :=
  match subs.get? contentType with
  | none => ([], none)
  | some eventTMap =>
    match eventTMap.get? eventType with
    | none => ([], some (noSubs contentType eventType))
    | some ss => (ss.map (fun s => s.notify data eventType), none)

/-! ### `Subscribe` in atomic steps

For calls that run concurrently, `Subscribe` is cut at the points where another
goroutine can run in between: the read `subs[contentType]` of the `if` (made
without the lock), the section between the first `mu.Lock()` and `mu.Unlock()`,
the allocation of the channel, and the section between the second `mu.Lock()`
and `mu.Unlock()`. Each piece runs as one step (memory is taken to be
sequentially consistent, so that the unlocked read is one step as well). -/

/-- Where a call of `Subscribe` stands. -/
inductive SubscribePC where
  | check : SubscribePC
  | create : SubscribePC
  | makeChan : SubscribePC
  | append (notifs : Chan) : SubscribePC
  | returned (notifs : Chan) : SubscribePC
  | panicked : SubscribePC
  deriving DecidableEq, Repr

/-- A call of `Subscribe` in progress. -/
structure SubscribeCall where
  contentType : String
  eventType : liveEventType
  pc : SubscribePC
  deriving DecidableEq, Repr

/-- The next atomic step of a call of `Subscribe`. -/
def SubscribeCall.step (w : World) (t : SubscribeCall) : World × SubscribeCall :=
  match t.pc with
  | SubscribePC.check =>
    -- if _, ok := subs[contentType]; !ok
    match w.subs.get? t.contentType with
    | none => (w, { t with pc := SubscribePC.create })
    | some _ => (w, { t with pc := SubscribePC.makeChan })
  | SubscribePC.create =>
    -- mu.Lock(); subs[contentType] = make(...); mu.Unlock()
    match w.subs.set t.contentType (GoMap.made []) with
    | none => (w, { t with pc := SubscribePC.panicked })
    | some subs1 => ({ subs := subs1, chans := w.chans }, { t with pc := SubscribePC.makeChan })
  | SubscribePC.makeChan =>
    -- notifs := make(chan LiveEvent)
    ({ subs := w.subs, chans := w.chans + 1 }, { t with pc := SubscribePC.append w.chans })
  | SubscribePC.append notifs =>
    -- mu.Lock(); subs[contentType][eventType] = append(...); mu.Unlock()
    let inner : GoMap liveEventType (List subscriber) :=
      (w.subs.get? t.contentType).getD GoMap.nil
    match inner.set t.eventType (bucket w.subs t.contentType t.eventType ++ [⟨notifs⟩]) with
    | none => (w, { t with pc := SubscribePC.panicked })
    | some inner1 =>
      match w.subs.set t.contentType inner1 with
      | none => (w, { t with pc := SubscribePC.panicked })
      | some subs2 =>
        ({ subs := subs2, chans := w.chans }, { t with pc := SubscribePC.returned notifs })
  | SubscribePC.returned notifs => (w, { t with pc := SubscribePC.returned notifs })
  | SubscribePC.panicked => (w, { t with pc := SubscribePC.panicked })

/-- A call of `Subscribe` run alone for `n` steps. -/
def SubscribeCall.steps (w : World) (t : SubscribeCall) : Nat → World × SubscribeCall
  | 0 => (w, t)
  | n + 1 => SubscribeCall.steps (t.step w).1 (t.step w).2 n

/-- Concurrent calls of `Subscribe` under a schedule: each number of `schedule`
names the call that takes the next step. -/
def interleave (w : World) (ts : List SubscribeCall) : List Nat → World × List SubscribeCall
  | [] => (w, ts)
  | i :: schedule =>
    match ts.get? i with
    | none => interleave w ts schedule
    | some t => interleave (t.step w).1 (ts.set i (t.step w).2) schedule

/-! ### `Emit` with the handoff of each send

`make(chan LiveEvent)` makes an unbuffered channel and `notify` sends on it with
no `select` and no timeout: the send completes when a goroutine receives from
the channel and blocks for ever when none does. `receiving ch` tells whether a
goroutine receives from `ch`. -/

/-- How a call of `Emit` ends: it returns its error (`none` is nil), or it
stays blocked in the send on a channel. -/
inductive Outcome where
  | returned (err : Option QueryError) : Outcome
  | blocked (chan : Chan) : Outcome
  deriving DecidableEq, Repr

/-- What a call of `Emit` does: the registry it leaves, the sends that were
received, in order, and how it ends. -/
structure EmitRun (α : Type) where
  subs : Subscriptions
  delivered : List (Send α)
  outcome : Outcome
  deriving DecidableEq, Repr

/-- The loop `for i := range subs { subs[i].notify(data, eventType) }` over the
subscribers still to be notified; `done` are the sends received so far. The
second component is the channel on which the loop stays blocked, if any. -/
def notifyLoop {α : Type} (receiving : Chan → Bool) (data : α) (eventType : liveEventType) :
    List subscriber → List (Send α) → List (Send α) × Option Chan
  | [], done => (done, none)
  | s :: rest, done =>
    if receiving s.notificationChan then
      notifyLoop receiving data eventType rest (done ++ [s.notify data eventType])
    else
      (done, some s.notificationChan)

/-- The loop `for contentT, eventTMap := range subs` of `Emit` with the handoff
of each send. -/
def emitLoopRecv {α : Type} (receiving : Chan → Bool) (contentType : String) (data : α)
    (eventType : liveEventType) :
    List (String × GoMap liveEventType (List subscriber)) → List (Send α) →
    List (Send α) × Outcome
  | [], done => (done, Outcome.returned none)
  | (contentT, eventTMap) :: rest, done =>
    if contentT ≠ contentType then
      emitLoopRecv receiving contentType data eventType rest done
    else
      match eventTMap.get? eventType with
      | none => (done, Outcome.returned (some (noSubs contentType eventType)))
      | some ss =>
        match notifyLoop receiving data eventType ss done with
        | (done1, some ch) => (done1, Outcome.blocked ch)
        | (done1, none) => emitLoopRecv receiving contentType data eventType rest done1

/-- The method `Subscriptions.Emit` with the handoff of each send. -/
def EmitRecv {α γ : Type} (receiving : Chan → Bool) (subs : Subscriptions) (_ctx : γ)
    (contentType : String) (data : α) (eventType : liveEventType) : EmitRun α :=
  let r := emitLoopRecv receiving contentType data eventType subs.entries []
  { subs := subs, delivered := r.1, outcome := r.2 }

/-! ## Go map lemmas -/

namespace GoMap

variable {κ ν : Type} [DecidableEq κ]

theorem find_put (k k1 : κ) (v : ν) (es : List (κ × ν)) :
    find k1 (put k v es) = if k1 = k then some v else find k1 es := by
  induction es with
  | nil =>
    by_cases h : k1 = k
    · simp [put, find, h]
    · have h2 : ¬ k = k1 := fun e => h e.symm
      simp [put, find, h, h2]
  | cons p rest ih =>
    obtain ⟨k0, v0⟩ := p
    by_cases h0 : k0 = k
    · subst h0
      by_cases h : k1 = k0
      · simp [put, find, h]
      · have h2 : ¬ k0 = k1 := fun e => h e.symm
        simp [put, find, h, h2]
    · by_cases h1 : k0 = k1
      · subst h1
        simp [put, find, h0]
      · simp [put, find, h0, h1, ih]

theorem find_eq_none_iff (k : κ) (es : List (κ × ν)) :
    find k es = none ↔ k ∉ es.map Prod.fst := by
  induction es with
  | nil => simp [find]
  | cons p rest ih =>
    obtain ⟨k0, v0⟩ := p
    by_cases h0 : k0 = k
    · simp [find, h0]
    · have h2 : ¬ k = k0 := fun e => h0 e.symm
      simp [find, h0, h2, ih]

theorem put_put (k : κ) (v v1 : ν) (es : List (κ × ν)) :
    put k v1 (put k v es) = put k v1 es := by
  induction es with
  | nil => simp [put]
  | cons p rest ih =>
    obtain ⟨k0, v0⟩ := p
    by_cases h0 : k0 = k
    · simp [put, h0]
    · simp [put, h0, ih]

theorem keys_put (k : κ) (v : ν) (es : List (κ × ν)) :
    (put k v es).map Prod.fst =
      if k ∈ es.map Prod.fst then es.map Prod.fst else es.map Prod.fst ++ [k] := by
  induction es with
  | nil => simp [put]
  | cons p rest ih =>
    obtain ⟨k0, v0⟩ := p
    by_cases h0 : k0 = k
    · simp [put, h0]
    · have h2 : ¬ k = k0 := fun e => h0 e.symm
      simp only [put, h0, if_false, List.map_cons, ih, List.mem_cons, h2, false_or]
      split <;> simp

theorem nodup_keys_put (k : κ) (v : ν) (es : List (κ × ν))
    (h : (es.map Prod.fst).Nodup) : ((put k v es).map Prod.fst).Nodup := by
  rw [keys_put]
  split
  · exact h
  · rename_i hn
    rw [List.nodup_append]
    refine ⟨h, List.nodup_singleton k, ?_⟩
    intro a ha hb
    simp at hb
    subst hb
    exact hn ha

theorem mem_put (k : κ) (v : ν) (es : List (κ × ν)) (p : κ × ν)
    (h : p ∈ put k v es) : p = (k, v) ∨ p ∈ es := by
  induction es with
  | nil => simp [put] at h; exact Or.inl h
  | cons q rest ih =>
    obtain ⟨k0, v0⟩ := q
    by_cases h0 : k0 = k
    · simp [put, h0] at h
      rcases h with h | h
      · exact Or.inl h
      · exact Or.inr (List.mem_cons_of_mem _ h)
    · simp only [put, h0, if_false, List.mem_cons] at h
      rcases h with h | h
      · exact Or.inr (by simp [h])
      · rcases ih h with h | h
        · exact Or.inl h
        · exact Or.inr (List.mem_cons_of_mem _ h)

theorem find_mem (k : κ) (v : ν) (es : List (κ × ν)) (h : find k es = some v) :
    (k, v) ∈ es := by
  induction es with
  | nil => simp [find] at h
  | cons q rest ih =>
    obtain ⟨k0, v0⟩ := q
    by_cases h0 : k0 = k
    · simp [find, h0] at h
      simp [h0, h]
    · simp [find, h0] at h
      exact List.mem_cons_of_mem _ (ih h)

end GoMap

/-! ## The loop of `Emit` against a direct lookup -/

theorem emitLoop_absent {α : Type} (c : String) (data : α) (k : liveEventType)
    (es : List (String × GoMap liveEventType (List subscriber))) (sent : List (Send α))
    (h : GoMap.find c es = none) : emitLoop c data k es sent = (sent, none) := by
  induction es with
  | nil => rfl
  | cons p rest ih =>
    obtain ⟨c0, m0⟩ := p
    by_cases h0 : c0 = c
    · simp [GoMap.find, h0] at h
    · simp only [GoMap.find, h0, if_false] at h
      simp [emitLoop, h0, ih h]

theorem emitLoop_noBucket {α : Type} (c : String) (data : α) (k : liveEventType)
    (es : List (String × GoMap liveEventType (List subscriber))) (sent : List (Send α))
    (m : GoMap liveEventType (List subscriber))
    (h : GoMap.find c es = some m) (hk : m.get? k = none) :
    emitLoop c data k es sent = (sent, some (noSubs c k)) := by
  induction es with
  | nil => simp [GoMap.find] at h
  | cons p rest ih =>
    obtain ⟨c0, m0⟩ := p
    by_cases h0 : c0 = c
    · simp only [GoMap.find, h0, if_true, Option.some.injEq] at h
      subst h
      simp [emitLoop, h0, hk]
    · simp only [GoMap.find, h0, if_false] at h
      simp [emitLoop, h0, ih h]

theorem emitLoop_bucket {α : Type} (c : String) (data : α) (k : liveEventType)
    (es : List (String × GoMap liveEventType (List subscriber))) (sent : List (Send α))
    (m : GoMap liveEventType (List subscriber)) (ss : List subscriber)
    (hnd : (es.map Prod.fst).Nodup)
    (h : GoMap.find c es = some m) (hk : m.get? k = some ss) :
    emitLoop c data k es sent = (sent ++ ss.map (fun s => s.notify data k), none) := by
  induction es with
  | nil => simp [GoMap.find] at h
  | cons p rest ih =>
    obtain ⟨c0, m0⟩ := p
    by_cases h0 : c0 = c
    · simp only [GoMap.find, h0, if_true, Option.some.injEq] at h
      subst h
      subst h0
      have hr : GoMap.find c0 rest = none := by
        rw [GoMap.find_eq_none_iff]
        exact (List.nodup_cons.mp hnd).1
      simp [emitLoop, hk, emitLoop_absent c0 data k rest _ hr]
    · simp only [GoMap.find, h0, if_false] at h
      have hnd1 : (rest.map Prod.fst).Nodup := (List.nodup_cons.mp hnd).2
      simp [emitLoop, h0, ih hnd1 h]

theorem Emit_absent {α γ : Type} (subs : Subscriptions) (ctx : γ) (c : String) (data : α)
    (k : liveEventType) (h : subs.get? c = none) :
    Emit subs ctx c data k = { subs := subs, sent := [], err := none } := by
  simp [Emit, emitLoop_absent c data k subs.entries [] h]

theorem Emit_noBucket {α γ : Type} (subs : Subscriptions) (ctx : γ) (c : String) (data : α)
    (k : liveEventType) (m : GoMap liveEventType (List subscriber))
    (h : subs.get? c = some m) (hk : m.get? k = none) :
    Emit subs ctx c data k = { subs := subs, sent := [], err := some (noSubs c k) } := by
  simp [Emit, emitLoop_noBucket c data k subs.entries [] m h hk]

theorem Emit_bucket {α γ : Type} (subs : Subscriptions) (ctx : γ) (c : String) (data : α)
    (k : liveEventType) (m : GoMap liveEventType (List subscriber)) (ss : List subscriber)
    (hwf : subs.WF) (h : subs.get? c = some m) (hk : m.get? k = some ss) :
    Emit subs ctx c data k =
      { subs := subs, sent := ss.map (fun s => s.notify data k), err := none } := by
  simp [Emit, emitLoop_bucket c data k subs.entries [] m ss hwf h hk]

/-! ## The four ways through `Subscribe` -/

theorem Subscribe_nil (w : World) (c : String) (k : liveEventType)
    (h : w.subs = GoMap.nil) : Subscribe w c k = (w, none) := by
  simp [Subscribe, h, GoMap.get?, GoMap.entries, GoMap.find, GoMap.set]

theorem Subscribe_fresh (w : World) (c : String) (k : liveEventType)
    (es : List (String × GoMap liveEventType (List subscriber)))
    (h : w.subs = GoMap.made es) (hc : GoMap.find c es = none) :
    Subscribe w c k =
      ({ subs := GoMap.made (GoMap.put c (GoMap.made [(k, [⟨w.chans⟩])]) es),
         chans := w.chans + 1 }, some w.chans) := by
  simp [Subscribe, h, GoMap.get?, GoMap.entries, hc, GoMap.set, GoMap.find_put, bucket,
    bucket?, GoMap.find, GoMap.put, GoMap.put_put]

theorem Subscribe_nilEntry (w : World) (c : String) (k : liveEventType)
    (es : List (String × GoMap liveEventType (List subscriber)))
    (h : w.subs = GoMap.made es) (hc : GoMap.find c es = some GoMap.nil) :
    Subscribe w c k = ({ subs := w.subs, chans := w.chans + 1 }, none) := by
  simp [Subscribe, h, GoMap.get?, GoMap.entries, hc, GoMap.set]

theorem Subscribe_entry (w : World) (c : String) (k : liveEventType)
    (es : List (String × GoMap liveEventType (List subscriber)))
    (ms : List (liveEventType × List subscriber))
    (h : w.subs = GoMap.made es) (hc : GoMap.find c es = some (GoMap.made ms)) :
    Subscribe w c k =
      ({ subs := GoMap.made (GoMap.put c
            (GoMap.made (GoMap.put k ((GoMap.find k ms).getD [] ++ [⟨w.chans⟩]) ms)) es),
         chans := w.chans + 1 }, some w.chans) := by
  simp [Subscribe, h, GoMap.get?, GoMap.entries, hc, GoMap.set, bucket, bucket?]

theorem Subscribe_cases (w : World) (c : String) (k : liveEventType)
    (P : World × Option Chan → Prop)
    (h1 : w.subs = GoMap.nil → P (w, none))
    (h2 : ∀ es, w.subs = GoMap.made es → GoMap.find c es = none →
      P ({ subs := GoMap.made (GoMap.put c (GoMap.made [(k, [⟨w.chans⟩])]) es),
           chans := w.chans + 1 }, some w.chans))
    (h3 : ∀ es, w.subs = GoMap.made es → GoMap.find c es = some GoMap.nil →
      P ({ subs := w.subs, chans := w.chans + 1 }, none))
    (h4 : ∀ es ms, w.subs = GoMap.made es → GoMap.find c es = some (GoMap.made ms) →
      P ({ subs := GoMap.made (GoMap.put c
            (GoMap.made (GoMap.put k ((GoMap.find k ms).getD [] ++ [⟨w.chans⟩]) ms)) es),
           chans := w.chans + 1 }, some w.chans)) :
    P (Subscribe w c k) := by
  cases hs : w.subs with
  | nil => rw [Subscribe_nil w c k hs]; exact h1 hs
  | made es =>
    cases hc : GoMap.find c es with
    | none => rw [Subscribe_fresh w c k es hs hc]; exact h2 es hs hc
    | some m =>
      cases m with
      | nil => rw [Subscribe_nilEntry w c k es hs hc, hs]; exact hs ▸ h3 es hs hc
      | made ms => rw [Subscribe_entry w c k es ms hs hc]; exact h4 es ms hs hc

/-- Entries of other content types are untouched by `Subscribe`. -/
theorem Subscribe_get?_other (w : World) (c : String) (k : liveEventType) (c1 : String)
    (hne : c1 ≠ c) : (Subscribe w c k).1.subs.get? c1 = w.subs.get? c1 := by
  refine Subscribe_cases w c k (fun r => r.1.subs.get? c1 = w.subs.get? c1) ?_ ?_ ?_ ?_
  · intro _; rfl
  · intro es hs _
    simp [hs, GoMap.get?, GoMap.entries, GoMap.find_put, hne]
  · intro es hs _; rfl
  · intro es ms hs _
    simp [hs, GoMap.get?, GoMap.entries, GoMap.find_put, hne]

/-- Buckets of other pairs are untouched by `Subscribe`. -/
theorem Subscribe_bucket?_other (w : World) (c : String) (k : liveEventType) (c1 : String)
    (k1 : liveEventType) (hne : (c1, k1) ≠ (c, k)) :
    bucket? (Subscribe w c k).1.subs c1 k1 = bucket? w.subs c1 k1 := by
  by_cases hc1 : c1 = c
  · subst hc1
    have hk : ¬ k1 = k := fun e => hne (by rw [e])
    have hk2 : ¬ k = k1 := fun e => hk e.symm
    refine Subscribe_cases w c1 k (fun r => bucket? r.1.subs c1 k1 = bucket? w.subs c1 k1)
      ?_ ?_ ?_ ?_
    · intro _; rfl
    · intro es hs hc
      simp [hs, bucket?, GoMap.get?, GoMap.entries, GoMap.find_put, hc, GoMap.find, hk2]
    · intro es hs _; rfl
    · intro es ms hs hc
      simp [hs, bucket?, GoMap.get?, GoMap.entries, GoMap.find_put, hc, hk]
  · unfold bucket?
    rw [Subscribe_get?_other w c k c1 hc1]

/-- A `Subscribe` that returns appends its subscriber to its own bucket. -/
theorem Subscribe_bucket?_same (w : World) (c : String) (k : liveEventType) (h : Chan)
    (hr : (Subscribe w c k).2 = some h) :
    h = w.chans ∧
      bucket? (Subscribe w c k).1.subs c k = some (bucket w.subs c k ++ [⟨h⟩]) := by
  revert hr
  refine Subscribe_cases w c k (fun r => r.2 = some h → h = w.chans ∧
    bucket? r.1.subs c k = some (bucket w.subs c k ++ [⟨h⟩])) ?_ ?_ ?_ ?_
  · intro _ hr; simp at hr
  · intro es hs hc hr
    simp only [Option.some.injEq] at hr
    subst hr
    simp [hs, bucket, bucket?, GoMap.get?, GoMap.entries, GoMap.find_put, hc, GoMap.find]
  · intro es hs _ hr; simp at hr
  · intro es ms hs hc hr
    simp only [Option.some.injEq] at hr
    subst hr
    simp [hs, bucket, bucket?, GoMap.get?, GoMap.entries, GoMap.find_put, hc]

/-- A `Subscribe` that panics has not changed the registry. -/
theorem Subscribe_panic (w : World) (c : String) (k : liveEventType)
    (hr : (Subscribe w c k).2 = none) : (Subscribe w c k).1.subs = w.subs := by
  revert hr
  refine Subscribe_cases w c k (fun r => r.2 = none → r.1.subs = w.subs) ?_ ?_ ?_ ?_
  · intro _ _; rfl
  · intro es _ _ hr; simp at hr
  · intro es _ _ _; rfl
  · intro es ms _ _ hr; simp at hr

/-- The entry of the subscribed content type after `Subscribe`. -/
theorem Subscribe_entry_isSome (w : World) (c : String) (k : liveEventType) (c1 : String) :
    ((Subscribe w c k).1.subs.get? c1).isSome =
      ((w.subs.get? c1).isSome || (decide (c1 = c) && ((Subscribe w c k).2).isSome)) := by
  by_cases hc1 : c1 = c
  · subst hc1
    refine Subscribe_cases w c1 k (fun r => (r.1.subs.get? c1).isSome =
      ((w.subs.get? c1).isSome || (decide (c1 = c1) && (r.2).isSome))) ?_ ?_ ?_ ?_
    · intro hs; simp
    · intro es hs hc
      simp [hs, GoMap.get?, GoMap.entries, GoMap.find_put]
    · intro es hs hc; simp
    · intro es ms hs hc
      simp [hs, GoMap.get?, GoMap.entries, GoMap.find_put]
  · rw [Subscribe_get?_other w c k c1 hc1]
    simp [hc1]

theorem Subscribe_WF (w : World) (c : String) (k : liveEventType) (h : w.subs.WF) :
    (Subscribe w c k).1.subs.WF := by
  revert h
  refine Subscribe_cases w c k (fun r => w.subs.WF → r.1.subs.WF) ?_ ?_ ?_ ?_
  · intro _ h; exact h
  · intro es hs _ h
    rw [hs] at h
    exact GoMap.nodup_keys_put _ _ _ h
  · intro es _ _ h; exact h
  · intro es ms hs _ h
    rw [hs] at h
    exact GoMap.nodup_keys_put _ _ _ h

theorem Subscribe_AllMade (w : World) (c : String) (k : liveEventType)
    (h : AllMade w.subs) :
    (Subscribe w c k).2 = some w.chans ∧ (Subscribe w c k).1.chans = w.chans + 1 ∧
      AllMade (Subscribe w c k).1.subs := by
  revert h
  refine Subscribe_cases w c k (fun r => AllMade w.subs →
    r.2 = some w.chans ∧ r.1.chans = w.chans + 1 ∧ AllMade r.1.subs) ?_ ?_ ?_ ?_
  · intro hs h
    rw [hs] at h
    simp [AllMade, GoMap.isNil] at h
  · intro es hs _ h
    rw [hs] at h
    refine ⟨rfl, rfl, rfl, ?_⟩
    intro p hp
    rcases GoMap.mem_put _ _ _ _ hp with hp | hp
    · rw [hp]; rfl
    · exact h.2 p hp
  · intro es hs hc h
    rw [hs] at h
    have := h.2 _ (GoMap.find_mem _ _ _ hc)
    simp [GoMap.isNil] at this
  · intro es ms hs _ h
    rw [hs] at h
    refine ⟨rfl, rfl, rfl, ?_⟩
    intro p hp
    rcases GoMap.mem_put _ _ _ _ hp with hp | hp
    · rw [hp]; rfl
    · exact h.2 p hp

/-! ## Sequences of `Subscribe` calls -/

theorem handlesFor_cons (c0 : String) (k0 : liveEventType)
    (rest : List (String × liveEventType)) (h : Chan) (hs : List Chan)
    (c : String) (k : liveEventType) :
    handlesFor ((c0, k0) :: rest) (h :: hs) c k =
      if (c0, k0) = (c, k) then h :: handlesFor rest hs c k else handlesFor rest hs c k := by
  by_cases e : (c0, k0) = (c, k)
  · simp [handlesFor, List.filter_cons, e]
  · simp [handlesFor, List.filter_cons, e]

theorem handlesFor_not_mem (calls : List (String × liveEventType)) (hs : List Chan)
    (c : String) (k : liveEventType) (hn : (c, k) ∉ calls) : handlesFor calls hs c k = [] := by
  induction calls generalizing hs with
  | nil => simp [handlesFor]
  | cons p rest ih =>
    obtain ⟨c0, k0⟩ := p
    cases hs with
    | nil => simp [handlesFor]
    | cons h hs =>
      have hne : ¬ (c0, k0) = (c, k) := fun e => hn (by rw [e]; exact List.mem_cons_self _ _)
      rw [handlesFor_cons, if_neg hne]
      exact ih hs (fun hm => hn (List.mem_cons_of_mem _ hm))

theorem handlesFor_sublist (calls : List (String × liveEventType)) (hs : List Chan)
    (c : String) (k : liveEventType) : List.Sublist (handlesFor calls hs c k) hs := by
  induction calls generalizing hs with
  | nil => simp [handlesFor]
  | cons p rest ih =>
    obtain ⟨c0, k0⟩ := p
    cases hs with
    | nil => simp [handlesFor]
    | cons h hs =>
      rw [handlesFor_cons]
      split
      · exact List.Sublist.cons₂ _ (ih hs)
      · exact List.Sublist.cons _ (ih hs)

theorem handlesFor_length (calls : List (String × liveEventType)) (hs : List Chan)
    (c : String) (k : liveEventType) (hl : hs.length = calls.length) :
    (handlesFor calls hs c k).length = calls.count (c, k) := by
  induction calls generalizing hs with
  | nil => simp [handlesFor]
  | cons p rest ih =>
    obtain ⟨c0, k0⟩ := p
    cases hs with
    | nil => simp at hl
    | cons h hs =>
      have hl1 : hs.length = rest.length := by simpa using hl
      rw [handlesFor_cons, List.count_cons]
      by_cases e : (c0, k0) = (c, k)
      · simp [e, ih hs hl1]
      · simp [e, ih hs hl1]

theorem subscribeAll_spec (calls : List (String × liveEventType)) (w : World)
    (h : AllMade w.subs) :
    ∃ w1, subscribeAll w calls = some (w1, List.range' w.chans calls.length) ∧
      AllMade w1.subs ∧ (w.subs.WF → w1.subs.WF) ∧ w1.chans = w.chans + calls.length ∧
      (∀ c k, bucket? w1.subs c k =
        if (c, k) ∈ calls then
          some (bucket w.subs c k ++
            (handlesFor calls (List.range' w.chans calls.length) c k).map subscriber.mk)
        else bucket? w.subs c k) ∧
      (∀ c, (w1.subs.get? c).isSome =
        ((w.subs.get? c).isSome || decide (c ∈ calls.map Prod.fst))) := by
  induction calls generalizing w with
  | nil => exact ⟨w, rfl, h, id, rfl, by simp, by simp⟩
  | cons p rest ih =>
    obtain ⟨c0, k0⟩ := p
    obtain ⟨hr, hch, ham⟩ := Subscribe_AllMade w c0 k0 h
    have he : Subscribe w c0 k0 = ((Subscribe w c0 k0).1, some w.chans) := Prod.ext rfl hr
    obtain ⟨w1, hrun, ham1, hwf1, hch1, hb1, he1⟩ := ih (Subscribe w c0 k0).1 ham
    rw [hch] at hrun hb1
    refine ⟨w1, ?_, ham1, fun hwf => hwf1 (Subscribe_WF w c0 k0 hwf), ?_, ?_, ?_⟩
    · rw [subscribeAll, he]
      simp only [hrun, List.length_cons, List.range'_succ]
    · rw [hch1, hch, List.length_cons]; omega
    · intro c k
      rw [hb1 c k, List.length_cons, List.range'_succ, handlesFor_cons]
      by_cases e : (c, k) = (c0, k0)
      · have e2 : (c0, k0) = (c, k) := e.symm
        obtain ⟨e3, e4⟩ := Prod.mk.inj e
        subst e3; subst e4
        have hsame := (Subscribe_bucket?_same w c k w.chans hr).2
        have hbk : bucket (Subscribe w c k).1.subs c k = bucket w.subs c k ++ [⟨w.chans⟩] := by
          simp [bucket, hsame]
        by_cases hm : (c, k) ∈ rest
        · simp [hm, hbk]
        · simp [hm, hsame, handlesFor_not_mem rest _ c k hm]
      · have e2 : ¬ (c0, k0) = (c, k) := fun x => e x.symm
        have hoth := Subscribe_bucket?_other w c0 k0 c k e
        have hbk : bucket (Subscribe w c0 k0).1.subs c k = bucket w.subs c k := by
          simp [bucket, hoth]
        simp only [List.mem_cons, e, false_or, if_neg e2, hbk, hoth]
    · intro c
      rw [he1 c, Subscribe_entry_isSome, hr]
      by_cases e : c = c0
      · simp [e]
      · have hd : decide (c = c0) = false := decide_eq_false e
        have hbeq : (c == c0) = false := by
          rw [beq_eq_false_iff_ne]; exact e
        rw [hd]
        simp [hbeq]

theorem bucket?_New (c : String) (k : liveEventType) : bucket? New.subs c k = none := rfl

theorem bucket_New (c : String) (k : liveEventType) : bucket New.subs c k = [] := rfl

/-- The registry after any sequence of `Subscribe` calls on a new registry. -/
theorem subscribeAll_New (calls : List (String × liveEventType)) :
    ∃ w, subscribeAll New calls = some (w, List.range' 0 calls.length) ∧
      AllMade w.subs ∧ w.subs.WF ∧ w.chans = calls.length ∧
      (∀ c k, bucket? w.subs c k =
        if (c, k) ∈ calls then
          some ((handlesFor calls (List.range' 0 calls.length) c k).map subscriber.mk)
        else none) ∧
      (∀ c, (w.subs.get? c).isSome = decide (c ∈ calls.map Prod.fst)) := by
  have h0 : AllMade New.subs := by decide
  obtain ⟨w, hrun, ham, hwf, hch, hb, he⟩ := subscribeAll_spec calls New h0
  refine ⟨w, hrun, ham, hwf (by decide), ?_, ?_, ?_⟩
  · rw [hch]; simp [New]
  · intro c k
    have hc0 : New.chans = 0 := rfl
    rw [hb c k, hc0, bucket?_New, bucket_New, List.nil_append]
  · intro c
    rw [he c]
    simp [New, GoMap.get?, GoMap.entries, GoMap.find]

/-! ## `Emit` on a registry with one entry per key -/

theorem bucket?_eq_some (subs : Subscriptions) (c : String) (k : liveEventType)
    (ss : List subscriber) (h : bucket? subs c k = some ss) :
    ∃ m, subs.get? c = some m ∧ m.get? k = some ss := by
  unfold bucket? at h
  cases hg : subs.get? c with
  | none => rw [hg] at h; simp at h
  | some m => rw [hg] at h; exact ⟨m, rfl, h⟩

theorem Emit_of_bucket {α γ : Type} (subs : Subscriptions) (ctx : γ) (c : String) (data : α)
    (k : liveEventType) (ss : List subscriber) (hwf : subs.WF)
    (h : bucket? subs c k = some ss) :
    Emit subs ctx c data k =
      { subs := subs, sent := ss.map (fun s => s.notify data k), err := none } := by
  obtain ⟨m, hm, hk⟩ := bucket?_eq_some subs c k ss h
  exact Emit_bucket subs ctx c data k m ss hwf hm hk

theorem Emit_of_entry {α γ : Type} (subs : Subscriptions) (ctx : γ) (c : String) (data : α)
    (k : liveEventType) (he : (subs.get? c).isSome = true) (h : bucket? subs c k = none) :
    Emit subs ctx c data k = { subs := subs, sent := [], err := some (noSubs c k) } := by
  cases hg : subs.get? c with
  | none => rw [hg] at he; simp at he
  | some m =>
    have hk : m.get? k = none := by simpa [bucket?, hg] using h
    exact Emit_noBucket subs ctx c data k m hg hk

/-- On a registry with one entry per key, `Emit` is a lookup of the bucket. -/
theorem Emit_eq_lookup {α γ : Type} (subs : Subscriptions) (ctx : γ) (c : String) (data : α)
    (k : liveEventType) (hwf : subs.WF) :
    Emit subs ctx c data k =
      { subs := subs
        sent := (bucket subs c k).map (fun s => s.notify data k)
        err := if (subs.get? c).isSome && (bucket? subs c k).isNone
               then some (noSubs c k) else none } := by
  cases hb : bucket? subs c k with
  | some ss =>
    rw [Emit_of_bucket subs ctx c data k ss hwf hb]
    simp [bucket, hb]
  | none =>
    cases hg : subs.get? c with
    | none =>
      rw [Emit_absent subs ctx c data k hg]
      simp [bucket, hb]
    | some m =>
      rw [Emit_of_entry subs ctx c data k (by simp [hg]) hb]
      simp [bucket, hb]

/-- Every send of the loop is either one made before or carries the payload
and the event type of the call. -/
theorem emitLoop_events {α : Type} (c : String) (data : α) (k : liveEventType)
    (es : List (String × GoMap liveEventType (List subscriber))) (sent : List (Send α))
    (s : Send α) (hs : s ∈ (emitLoop c data k es sent).1) :
    s ∈ sent ∨ s.event = { type := k, content := data } := by
  induction es generalizing sent with
  | nil => exact Or.inl hs
  | cons p rest ih =>
    obtain ⟨c0, m0⟩ := p
    by_cases h0 : c0 = c
    · cases hk : m0.get? k with
      | none =>
        simp only [emitLoop, h0, ne_eq, not_true_eq_false, if_false, hk] at hs
        exact Or.inl hs
      | some ss =>
        simp only [emitLoop, h0, ne_eq, not_true_eq_false, if_false, hk] at hs
        rcases ih _ hs with h | h
        · rcases List.mem_append.mp h with h | h
          · exact Or.inl h
          · obtain ⟨x, _, hx⟩ := List.mem_map.mp h
            exact Or.inr (by rw [← hx]; rfl)
        · exact Or.inr h
    · simp only [emitLoop, ne_eq, h0, not_false_eq_true, if_true] at hs
      exact ih _ hs

theorem handlesFor_mem_range (calls : List (String × liveEventType)) (n : Nat)
    (c : String) (k : liveEventType) (h : Chan)
    (hm : h ∈ handlesFor calls (List.range' n calls.length) c k) :
    n ≤ h ∧ h < n + calls.length := by
  have hsub := (handlesFor_sublist calls (List.range' n calls.length) c k).subset hm
  rw [List.mem_range'_1] at hsub
  exact hsub

/-! ## The properties of the specification -/

/-- C1, as stated, fails: on a registry fresh from `New`, where no pair has
ever been subscribed, `Emit` on ("Article", Save) returns nil, not a
`QueryError`, and sends nothing. -/
theorem C1_fresh_registry_emit_returns_nil :
    subscribeAll New [] = some (New, []) ∧
      Emit New.subs () "Article" "payload" Save =
        { subs := New.subs, sent := [], err := none } := by
  decide

/-- C1, amended: after any sequence of `Subscribe` calls on a new registry,
`Emit` on a pair that was never subscribed sends nothing; it returns the
`QueryError` when the content type has been subscribed under some event kind,
and nil when the content type has never been subscribed. -/
theorem C1_emit_on_unsubscribed_pair {α γ : Type} (calls : List (String × liveEventType))
    (ctx : γ) (c : String) (data : α) (k : liveEventType) (hnever : (c, k) ∉ calls) :
    ∃ w hs, subscribeAll New calls = some (w, hs) ∧
      (Emit w.subs ctx c data k).sent = [] ∧
      (Emit w.subs ctx c data k).err =
        if c ∈ calls.map Prod.fst then some (noSubs c k) else none := by
  obtain ⟨w, hrun, _, hwf, _, hb, he⟩ := subscribeAll_New calls
  refine ⟨w, _, hrun, ?_⟩
  have hbk : bucket? w.subs c k = none := by rw [hb c k, if_neg hnever]
  by_cases hc : c ∈ calls.map Prod.fst
  · have hent : (w.subs.get? c).isSome = true := by rw [he c]; exact decide_eq_true hc
    rw [Emit_of_entry w.subs ctx c data k hent hbk, if_pos hc]
    exact ⟨rfl, rfl⟩
  · have hent : w.subs.get? c = none := by
      have h1 : (w.subs.get? c).isSome = false := by rw [he c]; exact decide_eq_false hc
      cases hg : w.subs.get? c with
      | none => rfl
      | some m => rw [hg] at h1; simp at h1
    rw [Emit_absent w.subs ctx c data k hent, if_neg hc]
    exact ⟨rfl, rfl⟩

/-- C1, amended, at `Subscribe("Article", Save)` then `Emit` on ("Article", Delete). -/
theorem C1_emit_on_unsubscribed_pair_witness :
    ("Article", Delete) ∉ [("Article", Save)] ∧
      ∃ w hs, subscribeAll New [("Article", Save)] = some (w, hs) ∧
        (Emit w.subs () "Article" "payload" Delete).sent = [] ∧
        (Emit w.subs () "Article" "payload" Delete).err =
          if "Article" ∈ [("Article", Save)].map Prod.fst
          then some (noSubs "Article" Delete) else none :=
  ⟨by decide,
    C1_emit_on_unsubscribed_pair [("Article", Save)] () "Article" "payload" Delete (by decide)⟩

/-- The sends of `Emit`, each taken, after any sequence of `Subscribe` calls
on a new registry in which the pair (c, k) was subscribed at least once: one
on each channel those calls returned, in the order of the calls. -/
theorem Emit_sends_once_each_in_order {α γ : Type}
    (calls : List (String × liveEventType)) (ctx : γ) (c : String) (data : α)
    (k : liveEventType) (hN : 1 ≤ calls.count (c, k)) :
    ∃ w hs, subscribeAll New calls = some (w, hs) ∧ hs.length = calls.length ∧ hs.Nodup ∧
      (Emit w.subs ctx c data k).err = none ∧
      (Emit w.subs ctx c data k).sent =
        (handlesFor calls hs c k).map
          (fun h => { chan := h, event := { type := k, content := data } }) ∧
      (Emit w.subs ctx c data k).sent.length = calls.count (c, k) ∧
      ((Emit w.subs ctx c data k).sent.map Send.chan).Nodup ∧
      (bucket w.subs c k).map subscriber.notificationChan = handlesFor calls hs c k := by
  obtain ⟨w, hrun, _, hwf, _, hb, _⟩ := subscribeAll_New calls
  have hmem : (c, k) ∈ calls := List.count_pos_iff.mp hN
  have hbk := hb c k
  rw [if_pos hmem] at hbk
  have hlen : (List.range' 0 calls.length).length = calls.length := List.length_range' _ _ _
  have hnd : (handlesFor calls (List.range' 0 calls.length) c k).Nodup :=
    (handlesFor_sublist calls _ c k).nodup (List.nodup_range' _ _)
  refine ⟨w, _, hrun, hlen, List.nodup_range' _ _, ?_⟩
  rw [Emit_of_bucket w.subs ctx c data k _ hwf hbk]
  refine ⟨rfl, ?_, ?_, ?_, ?_⟩
  · simp [List.map_map, Function.comp_def, subscriber.notify]
  · simp [handlesFor_length calls _ c k hlen]
  · simpa [List.map_map, Function.comp_def, subscriber.notify] using hnd
  · simp [bucket, hbk, List.map_map, Function.comp_def]

/-- C3: on every registry, every event `Emit` sends has `Type` equal to the
event kind of the call and `Content()` equal to its payload, so any two sends
of one call carry the same event. -/
theorem C3_sent_events_carry_kind_and_payload {α γ : Type} (subs : Subscriptions) (ctx : γ)
    (c : String) (data : α) (k : liveEventType) (s1 s2 : Send α)
    (h1 : s1 ∈ (Emit subs ctx c data k).sent) (h2 : s2 ∈ (Emit subs ctx c data k).sent) :
    s1.event.type = k ∧ s1.event.Content = data ∧ s1.event = s2.event := by
  have key : ∀ s ∈ (Emit subs ctx c data k).sent,
      s.event = ({ type := k, content := data } : LiveEvent α) := by
    intro s hs
    rcases emitLoop_events c data k subs.entries [] s hs with h | h
    · simp at h
    · exact h
  have e1 := key s1 h1
  have e2 := key s2 h2
  refine ⟨?_, ?_, ?_⟩
  · rw [e1]
  · rw [e1]; rfl
  · rw [e1, e2]

/-- C3 at two independent subscriptions of ("Article", Save) and one `Emit`. -/
theorem C3_sent_events_carry_kind_and_payload_witness :
    subscribeAll New [("Article", Save), ("Article", Save)] =
        some (⟨GoMap.made [("Article", GoMap.made [(Save, [⟨0⟩, ⟨1⟩])])], 2⟩, [0, 1]) ∧
      (⟨0, ⟨Save, "payload"⟩⟩ : Send String) ∈
        (Emit (GoMap.made [("Article", GoMap.made [(Save, [⟨0⟩, ⟨1⟩])])]) ()
          "Article" "payload" Save).sent ∧
      (⟨1, ⟨Save, "payload"⟩⟩ : Send String) ∈
        (Emit (GoMap.made [("Article", GoMap.made [(Save, [⟨0⟩, ⟨1⟩])])]) ()
          "Article" "payload" Save).sent ∧
      (⟨0, ⟨Save, "payload"⟩⟩ : Send String).event.type = Save ∧
      (⟨0, ⟨Save, "payload"⟩⟩ : Send String).event.Content = "payload" ∧
      (⟨0, ⟨Save, "payload"⟩⟩ : Send String).event =
        (⟨1, ⟨Save, "payload"⟩⟩ : Send String).event :=
  ⟨by decide, by decide, by decide,
    C3_sent_events_carry_kind_and_payload
      (GoMap.made [("Article", GoMap.made [(Save, [⟨0⟩, ⟨1⟩])])]) ()
      "Article" "payload" Save ⟨0, ⟨Save, "payload"⟩⟩ ⟨1, ⟨Save, "payload"⟩⟩
      (by decide) (by decide)⟩

/-- C4: after any sequence of `Subscribe` calls on a new registry that
subscribed (c, k) but never (c, k2), with k and k2 distinct, the entry of c
exists and `Emit` on (c, k2) returns the `QueryError` and sends nothing. -/
theorem C4_emit_on_other_kind_is_lookup_failure {α γ : Type}
    (calls : List (String × liveEventType)) (ctx : γ) (c : String) (data : α)
    (k k2 : liveEventType) (_hne : k ≠ k2) (hsub : (c, k) ∈ calls)
    (hnever : (c, k2) ∉ calls) :
    ∃ w hs, subscribeAll New calls = some (w, hs) ∧ (w.subs.get? c).isSome = true ∧
      Emit w.subs ctx c data k2 =
        { subs := w.subs, sent := [], err := some (noSubs c k2) } := by
  obtain ⟨w, hrun, _, _, _, hb, he⟩ := subscribeAll_New calls
  have hc : c ∈ calls.map Prod.fst := List.mem_map.mpr ⟨(c, k), hsub, rfl⟩
  have hent : (w.subs.get? c).isSome = true := by rw [he c]; exact decide_eq_true hc
  have hbk : bucket? w.subs c k2 = none := by rw [hb c k2, if_neg hnever]
  exact ⟨w, _, hrun, hent, Emit_of_entry w.subs ctx c data k2 hent hbk⟩

/-- C4 at `Subscribe("Article", Save)` then `Emit` on ("Article", Delete). -/
theorem C4_emit_on_other_kind_is_lookup_failure_witness :
    Save ≠ Delete ∧ ("Article", Save) ∈ [("Article", Save)] ∧
      ("Article", Delete) ∉ [("Article", Save)] ∧
      ∃ w hs, subscribeAll New [("Article", Save)] = some (w, hs) ∧
        (w.subs.get? "Article").isSome = true ∧
        Emit w.subs () "Article" "payload" Delete =
          { subs := w.subs, sent := [], err := some (noSubs "Article" Delete) } :=
  ⟨by decide, by decide, by decide,
    C4_emit_on_other_kind_is_lookup_failure [("Article", Save)] () "Article" "payload"
      Save Delete (by decide) (by decide) (by decide)⟩

/-- C5: on every registry, for a content type that has no entry in it, `Emit`
returns nil, sends nothing and leaves the registry as it was, for every
payload and event kind. -/
theorem C5_emit_on_absent_content_type_is_noop {α γ : Type} (subs : Subscriptions) (ctx : γ)
    (c : String) (data : α) (k : liveEventType) (habsent : subs.get? c = none) :
    Emit subs ctx c data k = { subs := subs, sent := [], err := none } :=
  Emit_absent subs ctx c data k habsent

/-- C5 at a registry holding only "Article", and `Emit` on ("Page", Save). -/
theorem C5_emit_on_absent_content_type_is_noop_witness :
    (GoMap.made [("Article", GoMap.made [(Save, [⟨0⟩])])] : Subscriptions).get? "Page" = none ∧
      Emit (GoMap.made [("Article", GoMap.made [(Save, [⟨0⟩])])]) () "Page" "payload" Save =
        { subs := GoMap.made [("Article", GoMap.made [(Save, [⟨0⟩])])],
          sent := [], err := none } :=
  ⟨by decide,
    C5_emit_on_absent_content_type_is_noop
      (GoMap.made [("Article", GoMap.made [(Save, [⟨0⟩])])]) () "Page" "payload" Save
      (by decide)⟩

/-- The sends of `Emit`, each taken, after `Subscribe(c, k)` returned the
channel h between any other `Subscribe` calls: exactly one of them is on h. -/
theorem Emit_sends_once_to_handle {α γ : Type}
    (pre post : List (String × liveEventType)) (ctx : γ) (c : String) (data : α)
    (k : liveEventType) :
    ∃ w1 hs1 w2 h w3 hs3, subscribeAll New pre = some (w1, hs1) ∧
      Subscribe w1 c k = (w2, some h) ∧ subscribeAll w2 post = some (w3, hs3) ∧
      w3.subs.WF ∧ (⟨h⟩ : subscriber) ∈ bucket w3.subs c k ∧
      (Emit w3.subs ctx c data k).err = none ∧
      (Emit w3.subs ctx c data k).sent.filter (fun s => decide (s.chan = h)) =
        [{ chan := h, event := { type := k, content := data } }] := by
  obtain ⟨w1, hrun1, ham1, hwf1, hch1, hb1, _⟩ := subscribeAll_New pre
  obtain ⟨hr, hch2, ham2⟩ := Subscribe_AllMade w1 c k ham1
  have hwf2 := Subscribe_WF w1 c k hwf1
  have hsame := (Subscribe_bucket?_same w1 c k w1.chans hr).2
  obtain ⟨w3, hrun3, _, hwf3, _, hb3, _⟩ := subscribeAll_spec post (Subscribe w1 c k).1 ham2
  have hold : ∀ s ∈ bucket w1.subs c k, s.notificationChan < w1.chans := by
    intro s hs
    have hbk := hb1 c k
    by_cases hm : (c, k) ∈ pre
    · rw [if_pos hm] at hbk
      simp only [bucket, hbk, Option.getD_some, List.mem_map] at hs
      obtain ⟨x, hx, rfl⟩ := hs
      have := (handlesFor_mem_range pre 0 c k x hx).2
      rw [hch1]; simpa using this
    · rw [if_neg hm] at hbk
      simp [bucket, hbk] at hs
  rw [hch2] at hb3
  have hbucket : ∃ X : List Chan, (∀ x ∈ X, w1.chans < x) ∧
      bucket? w3.subs c k = some (bucket w1.subs c k ++ [⟨w1.chans⟩] ++ X.map subscriber.mk) := by
    have hbk := hb3 c k
    by_cases hm : (c, k) ∈ post
    · rw [if_pos hm] at hbk
      refine ⟨handlesFor post (List.range' (w1.chans + 1) post.length) c k, ?_, ?_⟩
      · intro x hx
        have := (handlesFor_mem_range post _ c k x hx).1
        omega
      · rw [hbk]
        simp [bucket, hsame]
    · rw [if_neg hm, hsame] at hbk
      exact ⟨[], by simp, by simpa using hbk⟩
  obtain ⟨X, hX, hbk3⟩ := hbucket
  refine ⟨w1, _, (Subscribe w1 c k).1, w1.chans, w3, _, hrun1, Prod.ext rfl hr, hrun3,
    hwf3 hwf2, by simp [bucket, hbk3], ?_⟩
  rw [Emit_of_bucket w3.subs ctx c data k _ (hwf3 hwf2) hbk3]
  refine ⟨rfl, ?_⟩
  have h1 : (bucket w1.subs c k).filter
      (fun s => decide ((s.notify data k).chan = w1.chans)) = [] := by
    rw [List.filter_eq_nil_iff]
    intro s hs
    have hlt := hold s hs
    simp only [decide_eq_true_eq]
    intro e
    have e1 : s.notificationChan = w1.chans := e
    exact absurd e1 (Nat.ne_of_lt hlt)
  have h2 : (X.map subscriber.mk).filter
      (fun s => decide ((s.notify data k).chan = w1.chans)) = [] := by
    rw [List.filter_eq_nil_iff]
    intro s hs
    obtain ⟨x, hx, rfl⟩ := List.mem_map.mp hs
    have hlt := hX x hx
    simp only [decide_eq_true_eq]
    intro e
    have e1 : x = w1.chans := e
    exact absurd e1.symm (Nat.ne_of_lt hlt)
  simp only [List.filter_map, Function.comp_def, List.filter_append, h1, h2]
  simp [subscriber.notify]

/-- C7: on every registry (one entry per key), the sends of `Emit` on (c, k)
are exactly the notifications of the subscribers in the bucket of (c, k), in
order; no send goes to the channel of a subscriber that stands in another
bucket and not in this one. -/
theorem C7_emit_sends_only_to_its_bucket {α γ : Type} (subs : Subscriptions) (ctx : γ)
    (c : String) (data : α) (k : liveEventType) (hwf : subs.WF) :
    (Emit subs ctx c data k).sent = (bucket subs c k).map (fun s => s.notify data k) ∧
      ∀ (c1 : String) (k1 : liveEventType) (s1 : subscriber),
        s1 ∈ bucket subs c1 k1 → s1 ∉ bucket subs c k →
        ∀ x ∈ (Emit subs ctx c data k).sent, x.chan ≠ s1.notificationChan := by
  rw [Emit_eq_lookup subs ctx c data k hwf]
  refine ⟨rfl, ?_⟩
  intro c1 k1 s1 _ hnot x hx e
  obtain ⟨s, hs, rfl⟩ := List.mem_map.mp hx
  apply hnot
  have : s = s1 := by
    cases s; cases s1
    simp only [subscriber.notify] at e
    simp [e]
  rw [← this]; exact hs

/-- C7 at a registry with ("Article", Save), ("Article", Delete) and ("Page", Save). -/
theorem C7_emit_sends_only_to_its_bucket_witness :
    (GoMap.made [("Article", GoMap.made [(Save, [⟨0⟩, ⟨3⟩]), (Delete, [⟨1⟩])]),
        ("Page", GoMap.made [(Save, [⟨2⟩])])] : Subscriptions).WF ∧
      (Emit (GoMap.made [("Article", GoMap.made [(Save, [⟨0⟩, ⟨3⟩]), (Delete, [⟨1⟩])]),
          ("Page", GoMap.made [(Save, [⟨2⟩])])]) () "Article" "payload" Save).sent =
        [⟨0, ⟨Save, "payload"⟩⟩, ⟨3, ⟨Save, "payload"⟩⟩] :=
  ⟨by decide,
    (C7_emit_sends_only_to_its_bucket
      (GoMap.made [("Article", GoMap.made [(Save, [⟨0⟩, ⟨3⟩]), (Delete, [⟨1⟩])]),
        ("Page", GoMap.made [(Save, [⟨2⟩])])]) () "Article" "payload" Save
      (by decide)).1.trans (by decide)⟩

/-- C8: on every registry reached from `New` by `Subscribe` calls,
`Subscribe(c, k)` returns a channel h; afterwards the entry of c exists and
the list under (c, k) is the list before the call (empty when the bucket was
absent) with the one subscriber of channel h appended at its end, h being a
channel no subscriber of the registry held before. -/
theorem C8_subscribe_appends_one_subscriber (calls : List (String × liveEventType))
    (c : String) (k : liveEventType) :
    ∃ w hs w1 h, subscribeAll New calls = some (w, hs) ∧ Subscribe w c k = (w1, some h) ∧
      (w1.subs.get? c).isSome = true ∧
      bucket? w1.subs c k = some (bucket w.subs c k ++ [⟨h⟩]) ∧
      bucket w1.subs c k = bucket w.subs c k ++ [⟨h⟩] ∧
      (bucket? w.subs c k = none → bucket w.subs c k = []) ∧
      ∀ (c1 : String) (k1 : liveEventType), (⟨h⟩ : subscriber) ∉ bucket w.subs c1 k1 := by
  obtain ⟨w, hrun, ham, _, hch, hb, _⟩ := subscribeAll_New calls
  obtain ⟨hr, _, _⟩ := Subscribe_AllMade w c k ham
  have hsame := (Subscribe_bucket?_same w c k w.chans hr).2
  refine ⟨w, _, (Subscribe w c k).1, w.chans, hrun, Prod.ext rfl hr, ?_, hsame, ?_, ?_, ?_⟩
  · rw [Subscribe_entry_isSome, hr]; simp
  · simp [bucket, hsame]
  · intro hn; simp [bucket, hn]
  · intro c1 k1 hmem
    have hbk := hb c1 k1
    by_cases hm : (c1, k1) ∈ calls
    · rw [if_pos hm] at hbk
      simp only [bucket, hbk, Option.getD_some, List.mem_map] at hmem
      obtain ⟨x, hx, hxe⟩ := hmem
      have hlt := (handlesFor_mem_range calls 0 c1 k1 x hx).2
      have e1 : x = w.chans := congrArg subscriber.notificationChan hxe
      rw [e1, hch] at hlt
      simp at hlt
    · rw [if_neg hm] at hbk
      simp [bucket, hbk] at hmem

/-- C9: on every state, a `Subscribe` call (returning or panicking) keeps
every content-type entry and every bucket that was present, and the list under
every pair before the call is an initial segment of the list after it; an
`Emit` call leaves the registry exactly as it was, whatever it returns. -/
theorem C9_registry_is_append_only {α γ : Type} (w : World) (ctx : γ) (c : String)
    (data : α) (k : liveEventType) (c0 : String) (k0 : liveEventType) :
    ((w.subs.get? c0).isSome = true → ((Subscribe w c k).1.subs.get? c0).isSome = true) ∧
      ((bucket? w.subs c0 k0).isSome = true →
        (bucket? (Subscribe w c k).1.subs c0 k0).isSome = true) ∧
      bucket w.subs c0 k0 <+: bucket (Subscribe w c k).1.subs c0 k0 ∧
      (Emit w.subs ctx c data k).subs = w.subs := by
  refine ⟨?_, ?_, ?_, rfl⟩
  · intro h
    rw [Subscribe_entry_isSome, h]; rfl
  · intro h
    by_cases e : (c0, k0) = (c, k)
    · obtain ⟨e1, e2⟩ := Prod.mk.inj e
      subst e1; subst e2
      cases hr : (Subscribe w c0 k0).2 with
      | none => rw [Subscribe_panic w c0 k0 hr]; exact h
      | some x => rw [(Subscribe_bucket?_same w c0 k0 x hr).2]; rfl
    · rw [Subscribe_bucket?_other w c k c0 k0 e]; exact h
  · by_cases e : (c0, k0) = (c, k)
    · obtain ⟨e1, e2⟩ := Prod.mk.inj e
      subst e1; subst e2
      cases hr : (Subscribe w c0 k0).2 with
      | none => exact ⟨[], by rw [Subscribe_panic w c0 k0 hr, List.append_nil]⟩
      | some x =>
        have hsame := (Subscribe_bucket?_same w c0 k0 x hr).2
        exact ⟨[⟨x⟩], by simp [bucket, hsame]⟩
    · have hoth := Subscribe_bucket?_other w c k c0 k0 e
      exact ⟨[], by simp [bucket, hoth]⟩

/-- C10: on every registry (one entry per key), `Emit` either returns the
`QueryError` having sent nothing, or returns nil having sent one notification
to each subscriber of the bucket of its pair, in order. -/
theorem C10_lookup_failure_has_no_delivery {α γ : Type} (subs : Subscriptions) (ctx : γ)
    (c : String) (data : α) (k : liveEventType) (hwf : subs.WF) :
    ((Emit subs ctx c data k).err = some (noSubs c k) ∧ (Emit subs ctx c data k).sent = []) ∨
      ((Emit subs ctx c data k).err = none ∧
        (Emit subs ctx c data k).sent = (bucket subs c k).map (fun s => s.notify data k)) := by
  rw [Emit_eq_lookup subs ctx c data k hwf]
  cases hb : bucket? subs c k with
  | some ss => right; simp [hb]
  | none =>
    cases hg : (subs.get? c).isSome with
    | true => left; simp [bucket, hb]
    | false => right; simp [bucket, hb]

/-- C10 at a registry holding ("Article", Save), and `Emit` on ("Article", Delete). -/
theorem C10_lookup_failure_has_no_delivery_witness :
    (GoMap.made [("Article", GoMap.made [(Save, [⟨0⟩, ⟨1⟩])])] : Subscriptions).WF ∧
      (Emit (GoMap.made [("Article", GoMap.made [(Save, [⟨0⟩, ⟨1⟩])])]) ()
          "Article" "payload" Delete).err = some (noSubs "Article" Delete) ∧
      (Emit (GoMap.made [("Article", GoMap.made [(Save, [⟨0⟩, ⟨1⟩])])]) ()
          "Article" "payload" Delete).sent = [] :=
  ⟨by decide,
    (C10_lookup_failure_has_no_delivery
      (GoMap.made [("Article", GoMap.made [(Save, [⟨0⟩, ⟨1⟩])])]) ()
      "Article" "payload" Delete (by decide)).elim id
      (fun h => absurd h.1 (by decide))⟩

/-! ## Reachable states -/

/-- `Subscribe` starts with `ensureEntry` and writes into the map it finds there. -/
theorem Subscribe_ensureEntry (w : World) (c : String) (k : liveEventType) :
    Subscribe w c k =
      match ensureEntry w.subs c with
      | none => (w, none)
      | some subs1 =>
        match ((subs1.get? c).getD GoMap.nil).set k (bucket subs1 c k ++ [⟨w.chans⟩]) with
        | none => ({ subs := subs1, chans := w.chans + 1 }, none)
        | some inner1 =>
          match subs1.set c inner1 with
          | none => ({ subs := subs1, chans := w.chans + 1 }, none)
          | some subs2 => ({ subs := subs2, chans := w.chans + 1 }, some w.chans) := rfl

theorem Subscribe_NonEmptyBuckets (w : World) (c : String) (k : liveEventType)
    (h : NonEmptyBuckets w.subs) : NonEmptyBuckets (Subscribe w c k).1.subs := by
  intro c1 k1 ss hss
  by_cases e : (c1, k1) = (c, k)
  · obtain ⟨e1, e2⟩ := Prod.mk.inj e
    subst e1; subst e2
    cases hr : (Subscribe w c1 k1).2 with
    | none =>
      rw [Subscribe_panic w c1 k1 hr] at hss
      exact h c1 k1 ss hss
    | some x =>
      rw [(Subscribe_bucket?_same w c1 k1 x hr).2] at hss
      simp only [Option.some.injEq] at hss
      rw [← hss]
      simp
  · rw [Subscribe_bucket?_other w c k c1 k1 e] at hss
    exact h c1 k1 ss hss

/-- What every state reached from `New` by `Subscribe` and `Emit` calls satisfies. -/
theorem run_invariant {α γ : Type} (calls : List (Call α γ)) (w : World)
    (h : AllMade w.subs ∧ w.subs.WF ∧ NonEmptyBuckets w.subs) :
    AllMade (run w calls).subs ∧ (run w calls).subs.WF ∧ NonEmptyBuckets (run w calls).subs := by
  induction calls generalizing w with
  | nil => exact h
  | cons call rest ih =>
    cases call with
    | subscribe c k =>
      exact ih _ ⟨(Subscribe_AllMade w c k h.1).2.2, Subscribe_WF w c k h.2.1,
        Subscribe_NonEmptyBuckets w c k h.2.2⟩
    | emit ctx c data k => exact ih _ h

theorem run_New_invariant {α γ : Type} (calls : List (Call α γ)) :
    AllMade (run New calls).subs ∧ (run New calls).subs.WF ∧
      NonEmptyBuckets (run New calls).subs := by
  apply run_invariant
  refine ⟨by decide, by decide, ?_⟩
  intro c k ss hss
  rw [bucket?_New] at hss
  simp at hss

/-- C11: in every state reached from `New` by any sequence of `Subscribe` and
`Emit` calls, `Subscribe(c, k)` returns a channel for every content type and
event kind: its first statement leaves a registry in which the entry of c is
a map that was made (not nil), so the write of the append step cannot panic. -/
theorem C11_subscribe_never_fails {α γ : Type} (calls : List (Call α γ)) (c : String)
    (k : liveEventType) :
    ∃ subs1 ms w1 h, ensureEntry (run New calls).subs c = some subs1 ∧
      subs1.get? c = some (GoMap.made ms) ∧
      Subscribe (run New calls) c k = (w1, some h) := by
  obtain ⟨ham, _, _⟩ := run_New_invariant calls
  obtain ⟨hr, _, _⟩ := Subscribe_AllMade (run New calls) c k ham
  have hsub : Subscribe (run New calls) c k =
      ((Subscribe (run New calls) c k).1, some (run New calls).chans) := Prod.ext rfl hr
  cases hs : (run New calls).subs with
  | nil => rw [hs] at ham; simp [AllMade, GoMap.isNil] at ham
  | made es =>
    rw [hs] at ham
    cases hc : GoMap.find c es with
    | none =>
      refine ⟨GoMap.made (GoMap.put c (GoMap.made []) es), [], _, _, ?_, ?_, hsub⟩
      · simp [ensureEntry, GoMap.get?, GoMap.entries, hc, GoMap.set]
      · simp [GoMap.get?, GoMap.entries, GoMap.find_put]
    | some m =>
      cases m with
      | nil =>
        have := ham.2 _ (GoMap.find_mem _ _ _ hc)
        simp [GoMap.isNil] at this
      | made ms =>
        refine ⟨GoMap.made es, ms, _, _, ?_, ?_, hsub⟩
        · simp [ensureEntry, GoMap.get?, GoMap.entries, hc]
        · simp [GoMap.get?, GoMap.entries, hc]

/-- C12: the event kinds declared are the twelve constants `APICreate`,
`APIUpdate`, `APIDelete`, `AdminCreate`, `AdminUpdate`, `AdminDelete`, `Save`,
`Delete`, `Approve`, `Reject`, `Enable`, `Disable`; their values are the
integers 1 to 12 in that order, pairwise distinct, and 0 is none of them. -/
theorem C12_event_kinds_are_one_to_twelve :
    eventKinds = [1, 2, 3, 4, 5, 6, 7, 8, 9, 10, 11, 12] ∧ eventKinds.length = 12 ∧
      eventKinds.Nodup ∧ (0 : liveEventType) ∉ eventKinds ∧
      APICreate = 1 ∧ APIUpdate = 2 ∧ APIDelete = 3 ∧ AdminCreate = 4 ∧ AdminUpdate = 5 ∧
      AdminDelete = 6 ∧ Save = 7 ∧ Delete = 8 ∧ Approve = 9 ∧ Reject = 10 ∧ Enable = 11 ∧
      Disable = 12 := by
  decide

/-- C13: on every state, `Subscribe(c, k)` leaves the bucket of every other
pair (c2, k2) as it was, present or absent, and leaves the entry of every
other content type as it was, present or absent. -/
theorem C13_subscribe_changes_only_its_bucket (w : World) (c : String) (k : liveEventType)
    (c2 : String) (k2 : liveEventType) (hne : (c2, k2) ≠ (c, k)) :
    bucket? (Subscribe w c k).1.subs c2 k2 = bucket? w.subs c2 k2 ∧
      bucket (Subscribe w c k).1.subs c2 k2 = bucket w.subs c2 k2 ∧
      ∀ c3, c3 ≠ c → (Subscribe w c k).1.subs.get? c3 = w.subs.get? c3 := by
  have h1 := Subscribe_bucket?_other w c k c2 k2 hne
  refine ⟨h1, ?_, ?_⟩
  · simp [bucket, h1]
  · intro c3 h3
    exact Subscribe_get?_other w c k c3 h3

/-- C13 at `Subscribe("Article", Save)` on a registry holding ("Article", Delete). -/
theorem C13_subscribe_changes_only_its_bucket_witness :
    ("Article", Delete) ≠ ("Article", Save) ∧
      bucket? (Subscribe ⟨GoMap.made [("Article", GoMap.made [(Delete, [⟨0⟩])])], 1⟩
          "Article" Save).1.subs "Article" Delete = some [⟨0⟩] :=
  ⟨by decide,
    (C13_subscribe_changes_only_its_bucket
      ⟨GoMap.made [("Article", GoMap.made [(Delete, [⟨0⟩])])], 1⟩ "Article" Save
      "Article" Delete (by decide)).1.trans (by decide)⟩

/-! ## `Subscribe` in atomic steps -/

/-- Run alone, the atomic steps of a call are `Subscribe`. -/
theorem SubscribeCall_steps_alone (w : World) (c : String) (k : liveEventType) :
    (SubscribeCall.steps w ⟨c, k, SubscribePC.check⟩ 4).1 = (Subscribe w c k).1 ∧
      (SubscribeCall.steps w ⟨c, k, SubscribePC.check⟩ 4).2.pc =
        match (Subscribe w c k).2 with
        | some h => SubscribePC.returned h
        | none => SubscribePC.panicked := by
  refine Subscribe_cases w c k
    (fun r => (SubscribeCall.steps w ⟨c, k, SubscribePC.check⟩ 4).1 = r.1 ∧
      (SubscribeCall.steps w ⟨c, k, SubscribePC.check⟩ 4).2.pc =
        match r.2 with
        | some h => SubscribePC.returned h
        | none => SubscribePC.panicked) ?_ ?_ ?_ ?_
  · intro hs
    simp [SubscribeCall.steps, SubscribeCall.step, hs, GoMap.get?, GoMap.entries, GoMap.find,
      GoMap.set]
  · intro es hs hc
    simp [SubscribeCall.steps, SubscribeCall.step, hs, GoMap.get?, GoMap.entries, hc,
      GoMap.set, GoMap.find_put, bucket, bucket?, GoMap.find, GoMap.put, GoMap.put_put]
  · intro es hs hc
    simp [SubscribeCall.steps, SubscribeCall.step, hs, GoMap.get?, GoMap.entries, hc,
      GoMap.set]
  · intro es ms hs hc
    simp [SubscribeCall.steps, SubscribeCall.step, hs, GoMap.get?, GoMap.entries, hc,
      GoMap.set, bucket, bucket?]

/-- C14 fails on the code: two concurrent calls `Subscribe("Article", Save)`
on a new registry, scheduled so that both make the unlocked read
`subs["Article"]` before either creates the entry. Both calls return a channel
(0 and 1), but the second call replaces the event map into which the first had
appended: the registry holds the subscriber of channel 1 only, and a later
`Emit` on ("Article", Save) sends nothing on channel 0. -/
theorem C14_interleaved_subscribes_lose_a_registration :
    interleave New
        [⟨"Article", Save, SubscribePC.check⟩, ⟨"Article", Save, SubscribePC.check⟩]
        [0, 1, 0, 0, 0, 1, 1, 1] =
      (⟨GoMap.made [("Article", GoMap.made [(Save, [⟨1⟩])])], 2⟩,
        [⟨"Article", Save, SubscribePC.returned 0⟩,
         ⟨"Article", Save, SubscribePC.returned 1⟩]) ∧
      (Emit (GoMap.made [("Article", GoMap.made [(Save, [⟨1⟩])])]) () "Article" "payload"
          Save).sent = [⟨1, ⟨Save, "payload"⟩⟩] ∧
      interleave New
        [⟨"Article", Save, SubscribePC.check⟩, ⟨"Article", Save, SubscribePC.check⟩]
        [0, 0, 0, 0, 1, 1, 1, 1] =
      (⟨GoMap.made [("Article", GoMap.made [(Save, [⟨0⟩, ⟨1⟩])])], 2⟩,
        [⟨"Article", Save, SubscribePC.returned 0⟩,
         ⟨"Article", Save, SubscribePC.returned 1⟩]) := by
  decide

/-- C15: `Emit` never reads its context: on every registry, for every content
type, payload and event kind, two calls that differ only in the context (of
whatever kind, cancelled or not) return the same error, execute the same sends
in the same order and leave the same registry. -/
theorem C15_emit_ignores_its_context {α γ1 γ2 : Type} (subs : Subscriptions) (ctx1 : γ1)
    (ctx2 : γ2) (c : String) (data : α) (k : liveEventType) :
    Emit subs ctx1 c data k = Emit subs ctx2 c data k ∧
      (Emit subs ctx1 c data k).err = (Emit subs ctx2 c data k).err ∧
      (Emit subs ctx1 c data k).sent = (Emit subs ctx2 c data k).sent :=
  ⟨rfl, rfl, rfl⟩

/-! ## The scan of `Emit` and the order of enumeration -/

theorem GoMap.find_of_mem {κ ν : Type} [DecidableEq κ] (k : κ) (v : ν) (es : List (κ × ν))
    (hnd : (es.map Prod.fst).Nodup) (hm : (k, v) ∈ es) : GoMap.find k es = some v := by
  induction es with
  | nil => simp at hm
  | cons p rest ih =>
    obtain ⟨k0, v0⟩ := p
    have hnd0 := List.nodup_cons.mp hnd
    rcases List.mem_cons.mp hm with e | hrest
    · obtain ⟨e1, e2⟩ := Prod.mk.inj e
      simp [GoMap.find, e1, e2]
    · have hk : k ∈ rest.map Prod.fst := List.mem_map.mpr ⟨(k, v), hrest, rfl⟩
      have hne : ¬ k0 = k := fun e => hnd0.1 (by simpa [e] using hk)
      simp [GoMap.find, hne, ih hnd0.2 hrest]

/-- With one entry per key, a lookup does not depend on the order of the entries. -/
theorem GoMap.find_perm {κ ν : Type} [DecidableEq κ] (k : κ) (es es1 : List (κ × ν))
    (hnd : (es.map Prod.fst).Nodup) (hp : es1.Perm es) :
    GoMap.find k es1 = GoMap.find k es := by
  have hnd1 : (es1.map Prod.fst).Nodup := (hp.map Prod.fst).nodup_iff.mpr hnd
  cases hf : GoMap.find k es with
  | none =>
    rw [GoMap.find_eq_none_iff] at hf ⊢
    intro hk
    exact hf ((hp.map Prod.fst).subset hk)
  | some v =>
    exact GoMap.find_of_mem k v es1 hnd1 (hp.symm.subset (GoMap.find_mem k v es hf))

theorem Emit_eq_emitDirect {α γ : Type} (subs : Subscriptions) (ctx : γ) (c : String)
    (data : α) (k : liveEventType) (hwf : subs.WF) :
    ((Emit subs ctx c data k).sent, (Emit subs ctx c data k).err) =
      emitDirect subs c data k := by
  unfold emitDirect
  cases hg : subs.get? c with
  | none => rw [Emit_absent subs ctx c data k hg]
  | some m =>
    cases hk : m.get? k with
    | none => rw [Emit_noBucket subs ctx c data k m hg hk]; simp only [hk]
    | some ss => rw [Emit_bucket subs ctx c data k m ss hwf hg hk]; simp only [hk]

/-- C16: on every registry (one entry per key) and for every order in which
`range` may enumerate its entries, the sends and the error of `Emit` are those
of the direct definition: nil when the content type has no entry, the
`QueryError` when the entry has no bucket of the event kind, else the
notifications of the bucket in order and nil. -/
theorem C16_emit_scan_is_a_direct_lookup {α γ : Type} (subs : Subscriptions)
    (order : List (String × GoMap liveEventType (List subscriber))) (ctx : γ) (c : String)
    (data : α) (k : liveEventType) (hwf : subs.WF) (horder : order.Perm subs.entries) :
    ((Emit (GoMap.made order) ctx c data k).sent,
        (Emit (GoMap.made order) ctx c data k).err) = emitDirect subs c data k ∧
      ((Emit subs ctx c data k).sent, (Emit subs ctx c data k).err) =
        emitDirect subs c data k := by
  have hwf1 : (GoMap.made order : Subscriptions).WF :=
    (horder.map Prod.fst).nodup_iff.mpr hwf
  refine ⟨?_, Emit_eq_emitDirect subs ctx c data k hwf⟩
  rw [Emit_eq_emitDirect (GoMap.made order) ctx c data k hwf1]
  have hget : (GoMap.made order : Subscriptions).get? c = subs.get? c :=
    GoMap.find_perm c subs.entries order hwf horder
  simp only [emitDirect, hget]

/-- C16 at a registry of two content types, enumerated in the other order. -/
theorem C16_emit_scan_is_a_direct_lookup_witness :
    (GoMap.made [("Article", GoMap.made [(Save, [⟨0⟩, ⟨2⟩])]),
        ("Page", GoMap.made [(Save, [⟨1⟩])])] : Subscriptions).WF ∧
      [("Page", GoMap.made [(Save, [(⟨1⟩ : subscriber)])]),
        ("Article", GoMap.made [(Save, [⟨0⟩, ⟨2⟩])])].Perm
        (GoMap.made [("Article", GoMap.made [(Save, [⟨0⟩, ⟨2⟩])]),
          ("Page", GoMap.made [(Save, [⟨1⟩])])] : Subscriptions).entries ∧
      ((Emit (GoMap.made [("Page", GoMap.made [(Save, [⟨1⟩])]),
            ("Article", GoMap.made [(Save, [⟨0⟩, ⟨2⟩])])]) () "Article" "payload" Save).sent,
        (Emit (GoMap.made [("Page", GoMap.made [(Save, [⟨1⟩])]),
            ("Article", GoMap.made [(Save, [⟨0⟩, ⟨2⟩])])]) () "Article" "payload" Save).err) =
        ([⟨0, ⟨Save, "payload"⟩⟩, ⟨2, ⟨Save, "payload"⟩⟩], none) :=
  ⟨by decide, by decide,
    (C16_emit_scan_is_a_direct_lookup
      (GoMap.made [("Article", GoMap.made [(Save, [⟨0⟩, ⟨2⟩])]),
        ("Page", GoMap.made [(Save, [⟨1⟩])])])
      [("Page", GoMap.made [(Save, [⟨1⟩])]), ("Article", GoMap.made [(Save, [⟨0⟩, ⟨2⟩])])]
      () "Article" "payload" Save (by decide) (by decide)).1.trans (by decide)⟩

/-- C17: in every state reached from `New` by `Subscribe` and `Emit` calls,
every bucket that exists as a key holds at least one subscriber; so for a
content type that has an entry, `Emit` returns the `QueryError` exactly when
no subscriber is registered under the event kind, and when it returns nil it
has executed at least one send. -/
theorem C17_existing_buckets_are_not_empty {α γ : Type} (calls : List (Call α γ)) (ctx : γ)
    (c : String) (data : α) (k : liveEventType)
    (hreg : ((run New calls).subs.get? c).isSome = true) :
    NonEmptyBuckets (run New calls).subs ∧
      ((Emit (run New calls).subs ctx c data k).err = some (noSubs c k) ↔
        bucket (run New calls).subs c k = []) ∧
      ((Emit (run New calls).subs ctx c data k).err = none →
        (Emit (run New calls).subs ctx c data k).sent ≠ []) := by
  obtain ⟨_, hwf, hne⟩ := run_New_invariant calls
  refine ⟨hne, ?_⟩
  rw [Emit_eq_lookup (run New calls).subs ctx c data k hwf]
  cases hb : bucket? (run New calls).subs c k with
  | none => simp [bucket, hb, hreg]
  | some ss =>
    have hss := hne c k ss hb
    simp [bucket, hb, hss]

/-- C17 after `Subscribe("Article", Save)`, an `Emit`, and `Subscribe("Article", Save)`. -/
theorem C17_existing_buckets_are_not_empty_witness :
    ((run New [(Call.subscribe "Article" Save : Call String Unit),
        Call.emit () "Article" "payload" Delete,
        Call.subscribe "Article" Save]).subs.get? "Article").isSome = true ∧
      ((Emit (run New [(Call.subscribe "Article" Save : Call String Unit),
          Call.emit () "Article" "payload" Delete,
          Call.subscribe "Article" Save]).subs () "Article" "payload" Delete).err =
          some (noSubs "Article" Delete) ↔
        bucket (run New [(Call.subscribe "Article" Save : Call String Unit),
          Call.emit () "Article" "payload" Delete,
          Call.subscribe "Article" Save]).subs "Article" Delete = []) :=
  ⟨by decide,
    (C17_existing_buckets_are_not_empty
      [(Call.subscribe "Article" Save : Call String Unit),
        Call.emit () "Article" "payload" Delete, Call.subscribe "Article" Save]
      () "Article" "payload" Delete (by decide)).2.1⟩

/-- C18 fails on the code in its first half: `Error` formats the `QueryError`
itself under `%s`, which calls `Error` again, so for no bound on the nesting
does a call of `Error` return a string, on any `QueryError`. The second half
holds: the error `Emit` returns for a content type that has an entry without
the bucket of the event kind has the text "no subs for ", the content type,
".", and the decimal value of the event kind ("no subs for Article.8" for
("Article", Delete)). -/
theorem C18_Error_recurses_and_emit_error_text :
    (∀ (depth : Nat) (e : QueryError), QueryError.Error depth e = none) ∧
      (∀ (subs : Subscriptions) (c : String) (k : liveEventType)
          (m : GoMap liveEventType (List subscriber)),
        subs.get? c = some m → m.get? k = none →
        (Emit subs () c "payload" k).err =
          some ⟨"no subs for " ++ c ++ "." ++ toString k⟩) ∧
      (Emit (GoMap.made [("Article", GoMap.made [(Save, [⟨0⟩])])]) () "Article" "payload"
          Delete).err = some ⟨"no subs for Article.8"⟩ ∧
      eventKinds.map (fun k => (noSubs "Article" k).text) =
        ["no subs for Article.1", "no subs for Article.2", "no subs for Article.3",
         "no subs for Article.4", "no subs for Article.5", "no subs for Article.6",
         "no subs for Article.7", "no subs for Article.8", "no subs for Article.9",
         "no subs for Article.10", "no subs for Article.11", "no subs for Article.12"] := by
  refine ⟨?_, ?_, by decide, by decide⟩
  · intro depth e
    induction depth with
    | zero => rfl
    | succ n ih => simp [QueryError.Error, ih]
  · intro subs c k m hg hk
    rw [Emit_noBucket subs () c "payload" k m hg hk]
    rfl

/-! ## `Emit` with the handoff of each send -/

theorem emitLoop_keeps {α : Type} (c : String) (data : α) (k : liveEventType)
    (es : List (String × GoMap liveEventType (List subscriber))) (sent : List (Send α))
    (s : Send α) (hs : s ∈ sent) : s ∈ (emitLoop c data k es sent).1 := by
  induction es generalizing sent with
  | nil => exact hs
  | cons p rest ih =>
    obtain ⟨c0, m0⟩ := p
    by_cases h0 : c0 = c
    · cases hk : m0.get? k with
      | none => simpa [emitLoop, h0, hk] using hs
      | some ss =>
        simp only [emitLoop, h0, ne_eq, not_true_eq_false, if_false, hk]
        exact ih _ (List.mem_append_left _ hs)
    · simp only [emitLoop, ne_eq, h0, not_false_eq_true, if_true]
      exact ih _ hs

/-- When every subscriber of the list is received from, the loop over them
completes with one received send each. -/
theorem notifyLoop_received {α : Type} (receiving : Chan → Bool) (data : α)
    (k : liveEventType) (ss : List subscriber) (done : List (Send α))
    (h : ∀ s ∈ ss, receiving s.notificationChan = true) :
    notifyLoop receiving data k ss done = (done ++ ss.map (fun s => s.notify data k), none) := by
  induction ss generalizing done with
  | nil => simp [notifyLoop]
  | cons s rest ih =>
    have hs : receiving s.notificationChan = true := h s (List.mem_cons_self _ _)
    have hrest : ∀ x ∈ rest, receiving x.notificationChan = true :=
      fun x hx => h x (List.mem_cons_of_mem _ hx)
    simp [notifyLoop, hs, ih _ hrest]

/-- When every send of the scan is received, the scan with the handoff returns
what the scan returns, after the same sends. -/
theorem emitLoopRecv_received {α : Type} (receiving : Chan → Bool) (c : String) (data : α)
    (k : liveEventType) (es : List (String × GoMap liveEventType (List subscriber)))
    (done : List (Send α))
    (h : ∀ s ∈ (emitLoop c data k es done).1, receiving s.chan = true) :
    emitLoopRecv receiving c data k es done =
      ((emitLoop c data k es done).1, Outcome.returned (emitLoop c data k es done).2) := by
  induction es generalizing done with
  | nil => rfl
  | cons p rest ih =>
    obtain ⟨c0, m0⟩ := p
    by_cases h0 : c0 = c
    · cases hk : m0.get? k with
      | none => simp [emitLoop, emitLoopRecv, h0, hk]
      | some ss =>
        simp only [emitLoop, h0, ne_eq, not_true_eq_false, if_false, hk] at h
        have hss : ∀ s ∈ ss, receiving s.notificationChan = true := by
          intro s hs
          have hm : s.notify data k ∈ done ++ ss.map (fun s => s.notify data k) :=
            List.mem_append_right _ (List.mem_map.mpr ⟨s, hs, rfl⟩)
          exact h _ (emitLoop_keeps c data k rest _ _ hm)
        simp only [emitLoop, emitLoopRecv, h0, ne_eq, not_true_eq_false, if_false, hk,
          notifyLoop_received receiving data k ss done hss]
        exact ih _ h
    · simp only [emitLoop, ne_eq, h0, not_false_eq_true, if_true] at h
      simp only [emitLoop, emitLoopRecv, ne_eq, h0, not_false_eq_true, if_true]
      exact ih _ h

theorem EmitRecv_received {α γ : Type} (receiving : Chan → Bool) (subs : Subscriptions)
    (ctx : γ) (c : String) (data : α) (k : liveEventType)
    (h : ∀ s ∈ (Emit subs ctx c data k).sent, receiving s.chan = true) :
    EmitRecv receiving subs ctx c data k =
      { subs := subs, delivered := (Emit subs ctx c data k).sent,
        outcome := Outcome.returned (Emit subs ctx c data k).err } := by
  have := emitLoopRecv_received receiving c data k subs.entries [] h
  simp [EmitRecv, Emit, this]

theorem notifyLoop_extends {α : Type} (receiving : Chan → Bool) (data : α)
    (k : liveEventType) (ss : List subscriber) (done : List (Send α)) :
    ∃ t u, (notifyLoop receiving data k ss done).1 = done ++ t ∧
      ss.map (fun s => s.notify data k) = t ++ u ∧
      ((notifyLoop receiving data k ss done).2 = none → u = []) := by
  induction ss generalizing done with
  | nil => exact ⟨[], [], by simp [notifyLoop], by simp, fun _ => rfl⟩
  | cons s rest ih =>
    cases hr : receiving s.notificationChan with
    | false =>
      refine ⟨[], (s :: rest).map (fun s => s.notify data k), ?_, by simp, ?_⟩
      · simp [notifyLoop, hr]
      · simp [notifyLoop, hr]
    | true =>
      obtain ⟨t, u, h1, h2, h3⟩ := ih (done ++ [s.notify data k])
      refine ⟨s.notify data k :: t, u, ?_, ?_, ?_⟩
      · simp [notifyLoop, hr, h1]
      · simp [h2]
      · simpa [notifyLoop, hr] using h3

theorem emitLoop_extends {α : Type} (c : String) (data : α) (k : liveEventType)
    (es : List (String × GoMap liveEventType (List subscriber))) (sent : List (Send α)) :
    ∃ t, (emitLoop c data k es sent).1 = sent ++ t := by
  induction es generalizing sent with
  | nil => exact ⟨[], by simp [emitLoop]⟩
  | cons p rest ih =>
    obtain ⟨c0, m0⟩ := p
    by_cases h0 : c0 = c
    · cases hk : m0.get? k with
      | none => exact ⟨[], by simp [emitLoop, h0, hk]⟩
      | some ss =>
        obtain ⟨t, ht⟩ := ih (sent ++ ss.map (fun s => s.notify data k))
        exact ⟨ss.map (fun s => s.notify data k) ++ t, by
          simp [emitLoop, h0, hk, ht]⟩
    · obtain ⟨t, ht⟩ := ih sent
      exact ⟨t, by simp [emitLoop, h0, ht]⟩

theorem emitLoopRecv_refines {α : Type} (receiving : Chan → Bool) (c : String) (data : α)
    (k : liveEventType) (es : List (String × GoMap liveEventType (List subscriber)))
    (done : List (Send α)) :
    ∃ t, (emitLoop c data k es done).1 = (emitLoopRecv receiving c data k es done).1 ++ t ∧
      ∀ err, (emitLoopRecv receiving c data k es done).2 = Outcome.returned err →
        t = [] ∧ err = (emitLoop c data k es done).2 := by
  induction es generalizing done with
  | nil =>
    refine ⟨[], by simp [emitLoop, emitLoopRecv], ?_⟩
    intro err he
    simp only [emitLoopRecv, Outcome.returned.injEq] at he
    exact ⟨rfl, by simp [emitLoop, he]⟩
  | cons p rest ih =>
    obtain ⟨c0, m0⟩ := p
    by_cases h0 : c0 = c
    · cases hk : m0.get? k with
      | none =>
        refine ⟨[], by simp [emitLoop, emitLoopRecv, h0, hk], ?_⟩
        intro err he
        simp only [emitLoopRecv, h0, ne_eq, not_true_eq_false, if_false, hk,
          Outcome.returned.injEq] at he
        exact ⟨rfl, by simp [emitLoop, h0, hk, he]⟩
      | some ss =>
        obtain ⟨t, u, h1, h2, h3⟩ := notifyLoop_extends receiving data k ss done
        cases hn : notifyLoop receiving data k ss done with
        | mk d r =>
          rw [hn] at h1 h3
          simp only at h1 h3
          cases r with
          | some ch =>
            obtain ⟨t3, ht3⟩ := emitLoop_extends c data k rest
              (done ++ ss.map (fun s => s.notify data k))
            refine ⟨u ++ t3, ?_, ?_⟩
            · rw [h2] at ht3
              simp [emitLoop, emitLoopRecv, h0, hk, hn, h1, h2, ht3]
            · intro err he
              simp [emitLoopRecv, h0, hk, hn] at he
          | none =>
            have hu : u = [] := h3 rfl
            have hd : d = done ++ ss.map (fun s => s.notify data k) := by
              rw [h1, h2, hu, List.append_nil]
            obtain ⟨t3, ht3, ht4⟩ := ih d
            refine ⟨t3, ?_, ?_⟩
            · simp only [emitLoop, emitLoopRecv, h0, ne_eq, not_true_eq_false, if_false, hk, hn]
              rw [← hd]; exact ht3
            · intro err he
              simp only [emitLoopRecv, h0, ne_eq, not_true_eq_false, if_false, hk, hn] at he
              obtain ⟨e1, e2⟩ := ht4 err he
              refine ⟨e1, ?_⟩
              simp only [emitLoop, h0, ne_eq, not_true_eq_false, if_false, hk]
              rw [← hd]; exact e2
    · obtain ⟨t, ht, ht2⟩ := ih done
      refine ⟨t, by simpa [emitLoop, emitLoopRecv, h0] using ht, ?_⟩
      intro err he
      simp only [emitLoopRecv, ne_eq, h0, not_false_eq_true, if_true] at he
      simpa [emitLoop, h0] using ht2 err he

/-- The call with the handoff does an initial segment of the sends of `Emit`;
when it returns it has done all of them and returns the error of `Emit`. -/
theorem EmitRecv_refines {α γ : Type} (receiving : Chan → Bool) (subs : Subscriptions)
    (ctx : γ) (c : String) (data : α) (k : liveEventType) :
    (EmitRecv receiving subs ctx c data k).subs = subs ∧
      (EmitRecv receiving subs ctx c data k).delivered <+: (Emit subs ctx c data k).sent ∧
      ∀ err, (EmitRecv receiving subs ctx c data k).outcome = Outcome.returned err →
        (EmitRecv receiving subs ctx c data k).delivered = (Emit subs ctx c data k).sent ∧
          err = (Emit subs ctx c data k).err := by
  obtain ⟨t, ht, ht2⟩ := emitLoopRecv_refines receiving c data k subs.entries []
  refine ⟨rfl, ⟨t, ht.symm⟩, ?_⟩
  intro err he
  obtain ⟨e1, e2⟩ := ht2 err he
  refine ⟨?_, e2⟩
  rw [e1, List.append_nil] at ht
  exact ht.symm

/-- C2, as stated, fails: after `Subscribe("Article", Save)` on a new registry
(one subscriber, N = 1), with no goroutine receiving from the returned channel 0,
`Emit` on ("Article", Save) does not return nil and delivers nothing: it stays
blocked in the send on channel 0. -/
theorem C2_emit_blocks_when_nobody_receives :
    subscribeAll New [("Article", Save)] =
        some (⟨GoMap.made [("Article", GoMap.made [(Save, [⟨0⟩])])], 1⟩, [0]) ∧
      EmitRecv (fun _ => false) (GoMap.made [("Article", GoMap.made [(Save, [⟨0⟩])])]) ()
          "Article" "payload" Save =
        { subs := GoMap.made [("Article", GoMap.made [(Save, [⟨0⟩])])],
          delivered := [], outcome := Outcome.blocked 0 } := by
  decide

/-- C2, amended: after any sequence of `Subscribe` calls on a new registry in
which the pair (c, k) was subscribed N ≥ 1 times, and provided a goroutine
receives from each channel those N calls returned, one `Emit` on (c, k)
returns nil and performs exactly N deliveries: one on each of those channels,
in the order of the calls, the channels being pairwise distinct and the ones
held in the bucket of (c, k). -/
theorem C2_emit_delivers_once_each_in_order_when_received {α γ : Type}
    (receiving : Chan → Bool) (calls : List (String × liveEventType)) (ctx : γ) (c : String)
    (data : α) (k : liveEventType) (hN : 1 ≤ calls.count (c, k))
    (hrecv : ∀ h ∈ handlesFor calls (List.range' 0 calls.length) c k, receiving h = true) :
    ∃ w hs, subscribeAll New calls = some (w, hs) ∧ hs = List.range' 0 calls.length ∧
      hs.length = calls.length ∧ hs.Nodup ∧
      (EmitRecv receiving w.subs ctx c data k).outcome = Outcome.returned none ∧
      (EmitRecv receiving w.subs ctx c data k).delivered =
        (handlesFor calls hs c k).map
          (fun h => { chan := h, event := { type := k, content := data } }) ∧
      (EmitRecv receiving w.subs ctx c data k).delivered.length = calls.count (c, k) ∧
      ((EmitRecv receiving w.subs ctx c data k).delivered.map Send.chan).Nodup ∧
      (bucket w.subs c k).map subscriber.notificationChan = handlesFor calls hs c k := by
  obtain ⟨w, hs, hrun, hlen, hnd, herr, hsent, hcount, hchans, hb⟩ :=
    Emit_sends_once_each_in_order calls ctx c data k hN
  obtain ⟨w0, hrun0, _⟩ := subscribeAll_New calls
  have hhs : hs = List.range' 0 calls.length := by
    rw [hrun0] at hrun
    simp only [Option.some.injEq, Prod.mk.injEq] at hrun
    exact hrun.2.symm
  have hall : ∀ s ∈ (Emit w.subs ctx c data k).sent, receiving s.chan = true := by
    intro s hs1
    rw [hsent, hhs] at hs1
    obtain ⟨x, hx, rfl⟩ := List.mem_map.mp hs1
    exact hrecv x hx
  refine ⟨w, hs, hrun, hhs, hlen, hnd, ?_⟩
  rw [EmitRecv_received receiving w.subs ctx c data k hall]
  exact ⟨by rw [herr], hsent, hcount, hchans, hb⟩

/-- C2, amended, at two subscriptions of ("Article", Save) with one of
("Page", Delete) between, channels 0 and 2 received from and channel 1 not. -/
theorem C2_emit_delivers_once_each_in_order_when_received_witness :
    1 ≤ [("Article", Save), ("Page", Delete), ("Article", Save)].count ("Article", Save) ∧
      (∀ h ∈ handlesFor [("Article", Save), ("Page", Delete), ("Article", Save)]
          (List.range' 0 [("Article", Save), ("Page", Delete), ("Article", Save)].length)
          "Article" Save, (fun ch => decide (ch ≠ 1)) h = true) ∧
      ∃ w hs, subscribeAll New [("Article", Save), ("Page", Delete), ("Article", Save)] =
          some (w, hs) ∧
        hs = List.range' 0 [("Article", Save), ("Page", Delete), ("Article", Save)].length ∧
        hs.length = [("Article", Save), ("Page", Delete), ("Article", Save)].length ∧
        hs.Nodup ∧
        (EmitRecv (fun ch => decide (ch ≠ 1)) w.subs () "Article" "payload" Save).outcome =
          Outcome.returned none ∧
        (EmitRecv (fun ch => decide (ch ≠ 1)) w.subs () "Article" "payload" Save).delivered =
          (handlesFor [("Article", Save), ("Page", Delete), ("Article", Save)] hs
              "Article" Save).map
            (fun h => { chan := h, event := { type := Save, content := "payload" } }) ∧
        (EmitRecv (fun ch => decide (ch ≠ 1)) w.subs () "Article" "payload"
            Save).delivered.length =
          [("Article", Save), ("Page", Delete), ("Article", Save)].count ("Article", Save) ∧
        ((EmitRecv (fun ch => decide (ch ≠ 1)) w.subs () "Article" "payload"
            Save).delivered.map Send.chan).Nodup ∧
        (bucket w.subs "Article" Save).map subscriber.notificationChan =
          handlesFor [("Article", Save), ("Page", Delete), ("Article", Save)] hs
            "Article" Save :=
  ⟨by decide, by decide,
    C2_emit_delivers_once_each_in_order_when_received (fun ch => decide (ch ≠ 1))
      [("Article", Save), ("Page", Delete), ("Article", Save)] () "Article" "payload" Save
      (by decide) (by decide)⟩

/-- C6, as stated, fails: `Subscribe("Article", Save)` returns channel 0, a
second `Subscribe("Article", Save)` returns h = 1, and only h is received
from. `Emit` on ("Article", Save) stays blocked in the send on channel 0: it
does not return nil and h, which comes after in the bucket, gets no event. -/
theorem C6_emit_blocked_before_reaching_handle :
    subscribeAll New [("Article", Save)] =
        some (⟨GoMap.made [("Article", GoMap.made [(Save, [⟨0⟩])])], 1⟩, [0]) ∧
      Subscribe ⟨GoMap.made [("Article", GoMap.made [(Save, [⟨0⟩])])], 1⟩ "Article" Save =
        (⟨GoMap.made [("Article", GoMap.made [(Save, [⟨0⟩, ⟨1⟩])])], 2⟩, some 1) ∧
      subscribeAll ⟨GoMap.made [("Article", GoMap.made [(Save, [⟨0⟩, ⟨1⟩])])], 2⟩ [] =
        some (⟨GoMap.made [("Article", GoMap.made [(Save, [⟨0⟩, ⟨1⟩])])], 2⟩, []) ∧
      EmitRecv (fun ch => decide (ch = 1))
          (GoMap.made [("Article", GoMap.made [(Save, [⟨0⟩, ⟨1⟩])])]) ()
          "Article" "payload" Save =
        { subs := GoMap.made [("Article", GoMap.made [(Save, [⟨0⟩, ⟨1⟩])])],
          delivered := [], outcome := Outcome.blocked 0 } := by
  decide

/-- C6, amended: let `Subscribe(c, k)` return the channel h on a registry
reached from `New` by any `Subscribe` calls, and let any further `Subscribe`
calls follow. Then the subscriber of h is in the bucket of (c, k), and
provided a goroutine receives from the channel of every subscriber in that
bucket, `Emit` on (c, k) returns nil and delivers exactly one event to h, the
one carrying the payload and the event kind. -/
theorem C6_registration_survives_later_subscribes_when_received {α γ : Type}
    (receiving : Chan → Bool) (pre post : List (String × liveEventType)) (ctx : γ)
    (c : String) (data : α) (k : liveEventType) :
    ∃ w1 hs1 w2 h w3 hs3, subscribeAll New pre = some (w1, hs1) ∧
      Subscribe w1 c k = (w2, some h) ∧ subscribeAll w2 post = some (w3, hs3) ∧
      (⟨h⟩ : subscriber) ∈ bucket w3.subs c k ∧
      ((∀ s ∈ bucket w3.subs c k, receiving s.notificationChan = true) →
        (EmitRecv receiving w3.subs ctx c data k).outcome = Outcome.returned none ∧
        (EmitRecv receiving w3.subs ctx c data k).delivered.filter
            (fun s => decide (s.chan = h)) =
          [{ chan := h, event := { type := k, content := data } }]) := by
  obtain ⟨w1, hs1, w2, h, w3, hs3, hrun1, hsub, hrun3, hwf, hmem, herr, hsent⟩ :=
    Emit_sends_once_to_handle pre post ctx c data k
  refine ⟨w1, hs1, w2, h, w3, hs3, hrun1, hsub, hrun3, hmem, ?_⟩
  intro hrecv
  have hall : ∀ s ∈ (Emit w3.subs ctx c data k).sent, receiving s.chan = true := by
    intro s hs
    rw [Emit_eq_lookup w3.subs ctx c data k hwf] at hs
    obtain ⟨x, hx, rfl⟩ := List.mem_map.mp hs
    exact hrecv x hx
  rw [EmitRecv_received receiving w3.subs ctx c data k hall]
  exact ⟨by rw [herr], hsent⟩

/-- C6, amended, at `Subscribe("Article", Save)` twice and `Subscribe("Page", Save)`
after, every channel received from: the second call's channel gets one event. -/
theorem C6_registration_survives_later_subscribes_when_received_witness :
    ∃ w1 hs1 w2 h w3 hs3, subscribeAll New [("Article", Save)] = some (w1, hs1) ∧
      Subscribe w1 "Article" Save = (w2, some h) ∧
      subscribeAll w2 [("Page", Save)] = some (w3, hs3) ∧
      (⟨h⟩ : subscriber) ∈ bucket w3.subs "Article" Save ∧
      (EmitRecv (fun _ => true) w3.subs () "Article" "payload" Save).outcome =
        Outcome.returned none ∧
      (EmitRecv (fun _ => true) w3.subs () "Article" "payload" Save).delivered.filter
          (fun s => decide (s.chan = h)) =
        [{ chan := h, event := { type := Save, content := "payload" } }] := by
  obtain ⟨w1, hs1, w2, h, w3, hs3, hrun1, hsub, hrun3, hmem, himp⟩ :=
    C6_registration_survives_later_subscribes_when_received (fun _ => true)
      [("Article", Save)] [("Page", Save)] () "Article" "payload" Save
  exact ⟨w1, hs1, w2, h, w3, hs3, hrun1, hsub, hrun3, hmem, himp (fun _ _ => rfl)⟩

end Live
